import Mathlib

/-!
# CMap2D: the tile map of the 2D scene

A shallow embedding of `App/Source/Scene2D/Map2D.cpp` (class `CMap2D`) and of the
level-complete step of `App/Source/Scene2D/Scene2D.cpp`.

* `unsigned int` values are natural numbers; arithmetic that can wrap is taken
  modulo `2 ^ 32` (`usub`, `uadd`).
* The heap array `arrMapInfo` (`Grid***`) is a list of levels, each a list of rows,
  each a list of cell values. An access outside the allocation is undefined
  behaviour in C++; here it is reported (`none`, or `Outcome.undefined`).
* `std::string` is a list of characters.
* The singleton `CSettings` the map points to is carried inside the map state.
-/

namespace Map2D

/-! ## Machine integers -/

/-- The modulus of `unsigned int` arithmetic, `2 ^ 32`. -/
def UINT_MOD : Nat := 4294967296

/-- Subtraction of `unsigned int` values. -/
def usub (a b : Nat) : Nat := (a + UINT_MOD - b % UINT_MOD) % UINT_MOD

/-- Addition of `unsigned int` values. -/
def uadd (a b : Nat) : Nat := (a + b) % UINT_MOD

/-- The least value of `int`. -/
def INT_MIN : Int := -2147483648

/-- The greatest value of `int`. -/
def INT_MAX : Int := 2147483647

/-- A value that the C++ type `int` can hold. -/
def IsInt (v : Int) : Prop := INT_MIN ≤ v ∧ v ≤ INT_MAX

instance (v : Int) : Decidable (IsInt v) := by
  unfold IsInt; exact inferInstance

/-- A C++ string. -/
abbrev Str := List Char

/-! ## Counting loops -/

/-- The loop `for (i = start; i < start + count; i++) s = body i s`: `count` is the
number of iterations left and `i` the running index. -/
def forLoop {σ : Type} (body : Nat → σ → σ) : Nat → Nat → σ → σ
  | 0, _, s => s
  | k + 1, i, s => forLoop body k (i + 1) (body i s)

/-- The same loop with a body that can leave the function early: `Except.error e`
is the early exit. -/
def forLoopE {ε σ : Type} (body : Nat → σ → Except ε σ) : Nat → Nat → σ → Except ε σ
  | 0, _, s => Except.ok s
  | k + 1, i, s =>
    match body i s with
    | Except.ok s' => forLoopE body k (i + 1) s'
    | Except.error e => Except.error e

/-- Equality of the results of a fallible computation can be decided. -/
instance instDecidableEqExcept {ε α : Type} [DecidableEq ε] [DecidableEq α] :
    DecidableEq (Except ε α) := fun a b =>
  match a, b with
  | Except.ok x, Except.ok y =>
    if h : x = y then isTrue (by rw [h]) else isFalse (fun h' => h (Except.ok.inj h'))
  | Except.error x, Except.error y =>
    if h : x = y then isTrue (by rw [h]) else isFalse (fun h' => h (Except.error.inj h'))
  | Except.ok _, Except.error _ => isFalse (fun h => Except.noConfusion h)
  | Except.error _, Except.ok _ => isFalse (fun h => Except.noConfusion h)

/-! ## Settings -/

/-- The axes of `CSettings::AXIS`; `other` stands for any value of the enumeration
type that is not one of the three named ones. -/
inductive AXIS where
  | x
  | y
  | z
  | other
  deriving DecidableEq

/-- The fields of the shared `CSettings` object that the map reads and writes. The
step counts are stored as the `unsigned int` they are converted from. -/
structure CSettings where
  NUM_TILES_XAXIS : Nat
  NUM_TILES_YAXIS : Nat
  NUM_STEPS_PER_TILE_XAXIS : Nat
  NUM_STEPS_PER_TILE_YAXIS : Nat
  deriving DecidableEq

/-- Modelled from the spec: `CSettings::UpdateSpecifications` is defined outside the
map's sources. It recomputes the derived specification values from the tile sizes
and counts; the derived values are floating point quantities that are not
represented here, and the tile and step counts themselves are left as they are. -/
def UpdateSpecifications (s : CSettings) : CSettings := s

/-! ## The CSV document -/

/-- Modelled from the spec: `rapidcsv::Document` is declared outside the map's
sources. It is the table of a comma-delimited file without header: a list of rows,
each a list of cells, each cell a string. -/
structure Document where
  mData : List (List Str)
  deriving DecidableEq

/-- Modelled from the spec: the number of rows of the table. -/
def Document.GetRowCount (d : Document) : Nat := d.mData.length

/-- Modelled from the spec: the number of columns of the table, the length of its
first row (0 for a table without rows). -/
def Document.GetColumnCount (d : Document) : Nat :=
  match d.mData with
  | [] => 0
  | r :: _ => r.length

/-- Modelled from the spec: the cells of row `i`; there is none past the last row. -/
def Document.GetRow (d : Document) (i : Nat) : Option (List Str) := d.mData[i]?

/-! ## The map -/

/-- The state of a `CMap2D` object, with the settings object it points to. -/
structure CMap2D where
  arrMapInfo : List (List (List Int))
  uiCurLevel : Nat
  uiNumLevels : Nat
  cSettings : CSettings
  doc : Document
  MapOfTextureIDs : List (Int × Nat)
  iTextureID : Nat
  deriving DecidableEq

/-- The value of `arrMapInfo[l][r][c].value`, when the three indices are inside the
allocation. -/
def readCell (a : List (List (List Int))) (l r c : Nat) : Option Int :=
  match a[l]? with
  | none => none
  | some lv =>
    match lv[r]? with
    | none => none
    | some rw => rw[c]?

/-- The assignment `arrMapInfo[l][r][c].value = v`, when the three indices are inside
the allocation. -/
def writeCell (a : List (List (List Int))) (l r c : Nat) (v : Int) :
    Option (List (List (List Int))) :=
  match a[l]? with
  | none => none
  | some lv =>
    match lv[r]? with
    | none => none
    | some rw => if c < rw.length then some (a.set l (lv.set r (rw.set c v))) else none

/-- How a member function ends. -/
inductive Outcome where
  | returned (b : Bool)
  | invalid_argument
  | out_of_range
  | undefined
  deriving DecidableEq

/-! ### Init -/

/-- `std::map::insert`: the pair is added unless the key is already present. -/
def mapInsert (m : List (Int × Nat)) (k : Int) (v : Nat) : List (Int × Nat) :=
  match m.lookup k with
  | some _ => m
  | none => m ++ [(k, v)]

/-- `std::map::at`: the value of a key, if there is one. -/
def mapAt (m : List (Int × Nat)) (k : Int) : Option Nat := m.lookup k

/-- The row `new Grid[uiNumCols]` (cells of indeterminate content `junk`) after the
innermost loop of `Init` has assigned 0 to each cell. -/
def initRow (junk : Int) (uiNumCols : Nat) : List Int :=
  forLoop (fun uiCol rw => rw.set uiCol 0) uiNumCols 0 (List.replicate uiNumCols junk)

/-- The level `new Grid*[uiNumRows]` after the row loop of `Init`. -/
def initLevel (junk : Int) (uiNumRows uiNumCols : Nat) : List (List Int) :=
  forLoop (fun uiRow lv => lv.set uiRow (initRow junk uiNumCols)) uiNumRows 0
    (List.replicate uiNumRows [])

/-- The array `new Grid**[uiNumLevels]` after the level loop of `Init`. -/
def initGrid (junk : Int) (uiNumLevels uiNumRows uiNumCols : Nat) : List (List (List Int)) :=
  forLoop (fun uiLevel a => a.set uiLevel (initLevel junk uiNumRows uiNumCols)) uiNumLevels 0
    (List.replicate uiNumLevels [])

def groundTilePath : String := "Image/Scene2D_GroundTile.tga"
def treeTilePath : String := "Image/Scene2D_TreeTile.tga"
def spikesPath : String := "Image/Scene2D_Spikes.tga"
def spaPath : String := "Image/Scene2D_Spa.tga"

/-- One texture of `Init`: load the file at `path` through the image loader (a
result of 0 is a failure), and register it under `key` on success. -/
def loadAndRegister (LoadTextureGetID : String → Nat) (path : String) (key : Int)
    (m : CMap2D) : Except CMap2D CMap2D :=
  let m1 := { m with iTextureID := LoadTextureGetID path }
  if m1.iTextureID = 0 then Except.error m1
  else Except.ok { m1 with MapOfTextureIDs := mapInsert m1.MapOfTextureIDs key m1.iTextureID }

/-- `CMap2D::Init`. `LoadTextureGetID` is the image loader, `junk` the content of
freshly allocated cells. Returns the result and the state afterwards. The vertex
array and the quad mesh that `Init` also creates are OpenGL objects and are left out. -/
def Init (LoadTextureGetID : String → Nat) (junk : Int) (m : CMap2D)
    (uiNumLevels uiNumRows uiNumCols : Nat) : Bool × CMap2D :=
  let m1 : CMap2D :=
    { m with
      arrMapInfo := initGrid junk uiNumLevels uiNumRows uiNumCols
      uiCurLevel := 0
      uiNumLevels := uiNumLevels
      cSettings := UpdateSpecifications
        { m.cSettings with NUM_TILES_XAXIS := uiNumCols, NUM_TILES_YAXIS := uiNumRows } }
  match loadAndRegister LoadTextureGetID groundTilePath 100 m1 with
  | Except.error m2 => (false, m2)
  | Except.ok m2 =>
    match loadAndRegister LoadTextureGetID treeTilePath 2 m2 with
    | Except.error m3 => (false, m3)
    | Except.ok m3 =>
      match loadAndRegister LoadTextureGetID spikesPath 20 m3 with
      | Except.error m4 => (false, m4)
      | Except.ok m4 =>
        match loadAndRegister LoadTextureGetID spaPath 21 m4 with
        | Except.error m5 => (false, m5)
        | Except.ok m5 => (true, m5)

/-! ### Setters of the settings -/

/-- `CMap2D::SetNumTiles`. -/
def SetNumTiles (m : CMap2D) (sAxis : AXIS) (uiValue : Nat) : CMap2D :=
  if uiValue ≤ 0 then m
  else
    match sAxis with
    | AXIS.x =>
      { m with cSettings := UpdateSpecifications { m.cSettings with NUM_TILES_XAXIS := uiValue } }
    | AXIS.y =>
      { m with cSettings := UpdateSpecifications { m.cSettings with NUM_TILES_YAXIS := uiValue } }
    | AXIS.z => m
    | AXIS.other => m

/-- `CMap2D::SetNumSteps`. -/
def SetNumSteps (m : CMap2D) (sAxis : AXIS) (uiValue : Nat) : CMap2D :=
  if uiValue ≤ 0 then m
  else
    match sAxis with
    | AXIS.x =>
      { m with cSettings :=
          UpdateSpecifications { m.cSettings with NUM_STEPS_PER_TILE_XAXIS := uiValue } }
    | AXIS.y =>
      { m with cSettings :=
          UpdateSpecifications { m.cSettings with NUM_STEPS_PER_TILE_YAXIS := uiValue } }
    | AXIS.z => m
    | AXIS.other => m

/-! ### Cell accessors -/

/-- `CMap2D::SetMapInfo`; `none` when the written cell is outside the allocation. -/
def SetMapInfo (m : CMap2D) (uiRow uiCol : Nat) (iValue : Int) (bInvert : Bool) :
    Option CMap2D :=
  if bInvert then
    (writeCell m.arrMapInfo m.uiCurLevel (usub (usub m.cSettings.NUM_TILES_YAXIS uiRow) 1)
      uiCol iValue).map (fun a => { m with arrMapInfo := a })
  else
    (writeCell m.arrMapInfo m.uiCurLevel uiRow uiCol iValue).map
      (fun a => { m with arrMapInfo := a })

/-- `CMap2D::GetMapInfo`; `none` when the read cell is outside the allocation. -/
def GetMapInfo (m : CMap2D) (uiRow uiCol : Nat) (bInvert : Bool) : Option Int :=
  if bInvert then
    readCell m.arrMapInfo m.uiCurLevel (usub (usub m.cSettings.NUM_TILES_YAXIS uiRow) 1) uiCol
  else
    readCell m.arrMapInfo m.uiCurLevel uiRow uiCol

/-! ### Current level -/

/-- `CMap2D::SetCurrentLevel`. -/
def SetCurrentLevel (m : CMap2D) (uiCurLevel : Nat) : CMap2D :=
  if uiCurLevel < m.uiNumLevels then { m with uiCurLevel := uiCurLevel } else m

/-- `CMap2D::GetCurrentLevel`. -/
def GetCurrentLevel (m : CMap2D) : Nat := m.uiCurLevel

/-- The level-complete step of `CScene2D::Update`:
`cMap2D->SetCurrentLevel(cMap2D->GetCurrentLevel() + 1)`. -/
def levelCompleted (m : CMap2D) : CMap2D := SetCurrentLevel m (uadd (GetCurrentLevel m) 1)

/-! ### Integers as text -/

/-- The character of a decimal digit. -/
def digitChar (d : Nat) : Char := Char.ofNat (48 + d)

/-- The decimal digits of `n`, most significant first; `fuel` bounds their number. -/
def natDigits : Nat → Nat → Str
  | 0, _ => []
  | fuel + 1, n =>
    if n < 10 then [digitChar n] else natDigits fuel (n / 10) ++ [digitChar (n % 10)]

/-- The text that `SetCell` stores for an `int`: its decimal digits, after a minus
sign when it is negative (the stream output of the integer). -/
def ToStr (v : Int) : Str :=
  if v < 0 then '-' :: natDigits (v.natAbs + 1) v.natAbs else natDigits (v.natAbs + 1) v.natAbs

/-- The characters `isspace` accepts: space, tab, line feed, vertical tab, form feed,
carriage return. -/
def isSpace (c : Char) : Bool :=
  c.toNat = 32 || c.toNat = 9 || c.toNat = 10 || c.toNat = 11 || c.toNat = 12 || c.toNat = 13

/-- A decimal digit. -/
def isDigit (c : Char) : Bool := 48 ≤ c.toNat && c.toNat ≤ 57

/-- The value of a decimal digit. -/
def digitVal (c : Char) : Nat := c.toNat - 48

/-- Drop the leading white space. -/
def skipSpace : Str → Str
  | [] => []
  | c :: cs => if isSpace c then skipSpace cs else c :: cs

/-- Read decimal digits for as long as there are some, starting from `acc`. -/
def readDigits (acc : Nat) : Str → Nat
  | [] => acc
  | c :: cs => if isDigit c then readDigits (acc * 10 + digitVal c) cs else acc

/-- The digits of `s` after its sign, with whether the sign is a minus. -/
def readSign (s : Str) : Bool × Str :=
  match s with
  | [] => (false, [])
  | c :: cs => if c = '-' then (true, cs) else if c = '+' then (false, cs) else (false, c :: cs)

/-- `std::stoi(s)` in base 10: white space, an optional sign, then digits; what
follows the digits is ignored. Without a digit it throws `invalid_argument`, with a
value outside `int` it throws `out_of_range`. -/
def stoi (s : Str) : Except Outcome Int :=
  let p := readSign (skipSpace s)
  match p.2 with
  | [] => Except.error Outcome.invalid_argument
  | c :: cs =>
    if isDigit c then
      let v : Int := if p.1 then -(readDigits 0 (c :: cs) : Int) else (readDigits 0 (c :: cs) : Int)
      if IsInt v then Except.ok v else Except.error Outcome.out_of_range
    else Except.error Outcome.invalid_argument

/-! ### Writing a cell of the document -/

/-- `std::vector::resize` of a row of cells: cut to `n` cells or fill up with empty
ones. -/
def resizeRow (n : Nat) (r : List Str) : List Str :=
  r.take n ++ List.replicate (n - r.length) []

/-- Modelled from the spec: `rapidcsv::Document::SetCell(col, row, text)` is declared
outside the map's sources. It stores `text` in the cell at column `col` of row `row`;
a table that has too few rows is first extended by rows of empty cells, and one that
has too few columns has every row resized, so that no cell written before is lost.
`none` when the row is still too short for the cell (the checked access throws). -/
def Document.SetCell (d : Document) (col row : Nat) (text : Str) : Option Document :=
  let rows1 := d.mData ++
    List.replicate (row + 1 - d.mData.length) (List.replicate d.GetColumnCount [])
  let rows2 :=
    if (Document.mk rows1).GetColumnCount < col + 1 then rows1.map (resizeRow (col + 1))
    else rows1
  match rows2[row]? with
  | none => none
  | some r => if col < r.length then some ⟨rows2.set row (r.set col text)⟩ else none

/-! ### LoadMap and SaveMap -/

/-- The inner loop body of `LoadMap`:
`arrMapInfo[uiCurLevel][uiRow][uiCol].value = (int)stoi(row[uiCol])`. An early exit
carries how the function ends and the array at that moment. -/
def loadCell (row : List Str) (uiCurLevel uiRow uiCol : Nat) (a : List (List (List Int))) :
    Except (Outcome × List (List (List Int))) (List (List (List Int))) :=
  match row[uiCol]? with
  | none => Except.error (Outcome.undefined, a)
  | some cell =>
    match stoi cell with
    | Except.error e => Except.error (e, a)
    | Except.ok v =>
      match writeCell a uiCurLevel uiRow uiCol v with
      | none => Except.error (Outcome.undefined, a)
      | some a' => Except.ok a'

/-- The outer loop body of `LoadMap`: read row `uiRow` of the document and load its
cells. -/
def loadRow (d : Document) (numCols uiCurLevel uiRow : Nat) (a : List (List (List Int))) :
    Except (Outcome × List (List (List Int))) (List (List (List Int))) :=
  match d.GetRow uiRow with
  | none => Except.error (Outcome.out_of_range, a)
  | some row => forLoopE (loadCell row uiCurLevel uiRow) numCols 0 a

/-- `CMap2D::LoadMap`. `file` is the document read from the file at the given path.
Returns how the call ends and the state at that moment. -/
def LoadMap (m : CMap2D) (file : Document) (uiCurLevel : Nat) : Outcome × CMap2D :=
  let m1 := { m with doc := file }
  if m1.cSettings.NUM_TILES_XAXIS ≠ m1.doc.GetColumnCount % UINT_MOD ∨
      m1.cSettings.NUM_TILES_YAXIS ≠ m1.doc.GetRowCount % UINT_MOD then
    (Outcome.returned false, m1)
  else
    match forLoopE (loadRow m1.doc m1.cSettings.NUM_TILES_XAXIS uiCurLevel)
        m1.cSettings.NUM_TILES_YAXIS 0 m1.arrMapInfo with
    | Except.ok a => (Outcome.returned true, { m1 with arrMapInfo := a })
    | Except.error (o, a) => (o, { m1 with arrMapInfo := a })

/-- The inner loop body of `SaveMap`:
`doc.SetCell(uiCol, uiRow, arrMapInfo[uiCurLevel][uiRow][uiCol].value)`. -/
def saveCell (a : List (List (List Int))) (uiCurLevel uiRow uiCol : Nat) (d : Document) :
    Except (Outcome × Document) Document :=
  match readCell a uiCurLevel uiRow uiCol with
  | none => Except.error (Outcome.undefined, d)
  | some v =>
    match d.SetCell uiCol uiRow (ToStr v) with
    | none => Except.error (Outcome.out_of_range, d)
    | some d' => Except.ok d'

/-- The result of `SaveMap`: how the call ends, the state at that moment, and the
document written to the file, if one was. -/
structure SaveResult where
  outcome : Outcome
  state : CMap2D
  file : Option Document

/-- `CMap2D::SaveMap`. The document is written to the file once every cell of the
level has been stored in it. -/
def SaveMap (m : CMap2D) (uiCurLevel : Nat) : SaveResult :=
  match forLoopE
      (fun uiRow d =>
        forLoopE (saveCell m.arrMapInfo uiCurLevel uiRow) m.cSettings.NUM_TILES_XAXIS 0 d)
      m.cSettings.NUM_TILES_YAXIS 0 m.doc with
  | Except.ok d => ⟨Outcome.returned true, { m with doc := d }, some d⟩
  | Except.error (o, d) => ⟨o, { m with doc := d }, none⟩

/-! ### FindValue -/

/-- The result of `FindValue`: the indices written to `uirRow` and `uirCol` with the
return value `true`, the return value `false`, or an access outside the array. -/
inductive FindResult where
  | found (uirRow uirCol : Nat)
  | notFound
  | undefined
  deriving DecidableEq

/-- The body of the inner loop of `FindValue`; the early exit is its `return true`
(or the access outside the array). -/
def findCell (m : CMap2D) (iValue : Int) (bInvert : Bool) (uiRow uiCol : Nat) (_ : Unit) :
    Except FindResult Unit :=
  match readCell m.arrMapInfo m.uiCurLevel uiRow uiCol with
  | none => Except.error FindResult.undefined
  | some v =>
    if v = iValue then
      if bInvert then
        Except.error (FindResult.found (usub (usub m.cSettings.NUM_TILES_YAXIS uiRow) 1) uiCol)
      else Except.error (FindResult.found uiRow uiCol)
    else Except.ok ()

/-- `CMap2D::FindValue`. -/
def FindValue (m : CMap2D) (iValue : Int) (bInvert : Bool) : FindResult :=
  match forLoopE
      (fun uiRow u => forLoopE (findCell m iValue bInvert uiRow) m.cSettings.NUM_TILES_XAXIS 0 u)
      m.cSettings.NUM_TILES_YAXIS 0 () with
  | Except.ok _ => FindResult.notFound
  | Except.error r => r

/-! ### Rendering -/

/-- One draw of the quad mesh: the tile it is issued for and the texture bound. -/
structure DrawCall where
  uiRow : Nat
  uiCol : Nat
  texture : Nat
  deriving DecidableEq

/-- `CMap2D::RenderTile`, on the list of the draw calls issued so far. The early
exit is the exception of `MapOfTextureIDs.at`, or the access outside the array. -/
def RenderTile (m : CMap2D) (uiRow uiCol : Nat) (calls : List DrawCall) :
    Except (Outcome × List DrawCall) (List DrawCall) :=
  match readCell m.arrMapInfo m.uiCurLevel uiRow uiCol with
  | none => Except.error (Outcome.undefined, calls)
  | some v =>
    if 0 < v ∧ v < 200 then
      match mapAt m.MapOfTextureIDs v with
      | none => Except.error (Outcome.out_of_range, calls)
      | some t => Except.ok (calls ++ [⟨uiRow, uiCol, t⟩])
    else Except.ok calls

/-- `CMap2D::Render`: how the call ends (`none` when it returns) and the draw calls it
issued, in order. The transform uploaded before each tile is a floating point matrix
and is left out. -/
def Render (m : CMap2D) : Option Outcome × List DrawCall :=
  match forLoopE
      (fun uiRow calls =>
        forLoopE (RenderTile m uiRow) m.cSettings.NUM_TILES_XAXIS 0 calls)
      m.cSettings.NUM_TILES_YAXIS 0 [] with
  | Except.ok calls => (none, calls)
  | Except.error (o, calls) => (some o, calls)

/-! ### Sequences of operations -/

/-- A call of a public operation of the map. -/
inductive Op where
  | SetMapInfo (uiRow uiCol : Nat) (iValue : Int) (bInvert : Bool)
  | GetMapInfo (uiRow uiCol : Nat) (bInvert : Bool)
  | FindValue (iValue : Int) (bInvert : Bool)
  | SetCurrentLevel (uiCurLevel : Nat)
  | SetNumTiles (sAxis : AXIS) (uiValue : Nat)
  | SetNumSteps (sAxis : AXIS) (uiValue : Nat)
  | LoadMap (file : Document) (uiCurLevel : Nat)
  | SaveMap (uiCurLevel : Nat)

/-- The state after one call; `none` when the call has undefined behaviour. A call
that throws leaves the state of the moment of the throw. -/
def step (m : CMap2D) : Op → Option CMap2D
  | Op.SetMapInfo r c v b => SetMapInfo m r c v b
  | Op.GetMapInfo r c b => (GetMapInfo m r c b).map (fun _ => m)
  | Op.FindValue v b => if FindValue m v b = FindResult.undefined then none else some m
  | Op.SetCurrentLevel l => some (SetCurrentLevel m l)
  | Op.SetNumTiles ax v => some (SetNumTiles m ax v)
  | Op.SetNumSteps ax v => some (SetNumSteps m ax v)
  | Op.LoadMap file l =>
    if (LoadMap m file l).1 = Outcome.undefined then none else some (LoadMap m file l).2
  | Op.SaveMap l =>
    if (SaveMap m l).outcome = Outcome.undefined then none else some (SaveMap m l).state

/-- The state after a sequence of calls. -/
def run (m : CMap2D) : List Op → Option CMap2D
  | [] => some m
  | op :: ops =>
    match step m op with
    | none => none
    | some m' => run m' ops

/-- The array has `L` levels of `R` rows of `C` cells. -/
def Shaped (a : List (List (List Int))) (L R C : Nat) : Prop :=
  a.length = L ∧ ∀ lv ∈ a, lv.length = R ∧ ∀ rw ∈ lv, rw.length = C

/-- The table has `R` rows of `C` cells. -/
def Rect (rows : List (List Str)) (R C : Nat) : Prop :=
  rows.length = R ∧ ∀ r ∈ rows, r.length = C


/-! ### Concrete states -/

/-- A `CMap2D` as its constructor leaves it (`uiCurLevel(0)`), pointing to the
settings `s`; nothing is allocated or registered, and the document is empty. -/
def constructed (s : CSettings) : CMap2D := ⟨[], 0, 0, s, ⟨[]⟩, [], 0⟩

/-- Settings before any map has published its tile counts. -/
def defaultSettings : CSettings := ⟨0, 0, 0, 0⟩

/-- An image loader that finds every file and hands out the texture 1. -/
def loaderOK : String → Nat := fun _ => 1

/-- An image loader that finds every file but the spikes texture. -/
def loaderNoSpikes : String → Nat := fun p => if p = spikesPath then 0 else 1

/-- The map after `Init(uiNumLevels, uiNumRows, uiNumCols)` on a newly constructed
object, with every texture found. -/
def fresh (uiNumLevels uiNumRows uiNumCols : Nat) : CMap2D :=
  (Init loaderOK 0 (constructed defaultSettings) uiNumLevels uiNumRows uiNumCols).2


/-- What holds of the result of a fallible computation: `P` of the state it ends
with, or `Q` of its early exit. -/
def postE {ε σ : Type} (Q : ε → Prop) (P : σ → Prop) : Except ε σ → Prop
  | Except.ok s => P s
  | Except.error e => Q e

/-- A map in which the tile 100 stands at `(0, 5)` and at `(2, 3)` of level 0, on 3 rows of 6
columns. -/
def twoMatches : CMap2D :=
  { fresh 1 3 6 with
    arrMapInfo := [[[0, 0, 0, 0, 0, 100], [0, 0, 0, 0, 0, 0], [0, 0, 0, 100, 0, 0]]] }

/-- A file of 23 rows of 32 cells `0`. -/
def file23 : Document := ⟨List.replicate 23 (List.replicate 32 ['0'])⟩


/-- The position `(r, c)` comes before `(r0, c0)` in row-major order. -/
def Before (r c r0 c0 : Nat) : Prop := r < r0 ∨ (r = r0 ∧ c < c0)

instance (r c r0 c0 : Nat) : Decidable (Before r c r0 c0) := by
  unfold Before; exact inferInstance

/-- The texture lookup of `RenderTile` does not throw at `(r, c)`: a value of the
cell in 1..199 has an entry in `MapOfTextureIDs`. -/
def LookupFine (m : CMap2D) (r c : Nat) : Prop :=
  ∀ w, readCell m.arrMapInfo m.uiCurLevel r c = some w → 0 < w → w < 200 →
    mapAt m.MapOfTextureIDs w ≠ none

/-- The draw call `d` is the one `RenderTile` issues for its cell: the value of the
cell is in 1..199 and `d.texture` is its entry in `MapOfTextureIDs`. -/
def Draws (m : CMap2D) (d : DrawCall) : Prop :=
  ∃ v, readCell m.arrMapInfo m.uiCurLevel d.uiRow d.uiCol = some v ∧ 0 < v ∧ v < 200 ∧
    mapAt m.MapOfTextureIDs v = some d.texture

/-- The draw calls issued when the loops of `Render` stand at `(r0, c0)`: every lookup
before went fine, and `calls` holds the draw calls of the cells before. -/
def RenderedUpTo (m : CMap2D) (C r0 c0 : Nat) (calls : List DrawCall) : Prop :=
  (∀ r c, c < C → Before r c r0 c0 → LookupFine m r c) ∧
    ∀ d, d ∈ calls ↔ (d.uiCol < C ∧ Before d.uiRow d.uiCol r0 c0 ∧ Draws m d)

/-- A map of one cell that holds the tile value 1, for which `Init` registers no
texture. -/
def unregisteredTile : CMap2D := { fresh 1 1 1 with arrMapInfo := [[[1]]] }


/-- The call is a `SetNumTiles` that assigns a tile count of the settings: one with a
positive value on the x or the y axis. -/
def changesTiles : Op → Prop
  | Op.SetNumTiles sAxis uiValue => 0 < uiValue ∧ (sAxis = AXIS.x ∨ sAxis = AXIS.y)
  | _ => False


/-- The text of the cell in row `r`, column `c` of the table. -/
def cellText (d : Document) (r c : Nat) : Option Str :=
  match d.mData[r]? with
  | none => none
  | some row => row[c]?

/-- The integer that `std::stoi` reads in the cell `(r, c)` of the table (0 when
there is no such cell or no integer to read). -/
def fileValue (d : Document) (r c : Nat) : Int :=
  match cellText d r c with
  | none => 0
  | some s =>
    match stoi s with
    | Except.ok v => v
    | Except.error _ => 0

/-- The cell `(r, c)` of the table holds a text that `std::stoi` converts. -/
def Converts (d : Document) (r c : Nat) : Prop :=
  ∃ v, (cellText d r c).map stoi = some (Except.ok v)

/-- The table has `R` rows of `C` cells each, and `C` is its column count. -/
def RectDoc (d : Document) (R C : Nat) : Prop := Rect d.mData R C ∧ d.GetColumnCount = C

/-- The array `a` is `a0` with the cells of level `level` that come before `(r0, c0)`
in row-major order (on `C` columns) replaced by the integers of the table. -/
def LoadedUpTo (a0 a : List (List (List Int))) (level : Nat) (d : Document) (C r0 c0 : Nat) :
    Prop :=
  ∀ l r c, readCell a l r c =
    if l = level ∧ c < C ∧ Before r c r0 c0 then some (fileValue d r c) else readCell a0 l r c

/-- The state of the loops of `LoadMap` when they stand at `(r0, c0)`. -/
def LoadInv (a0 : List (List (List Int))) (level : Nat) (d : Document) (L R C r0 c0 : Nat)
    (a : List (List (List Int))) : Prop :=
  Shaped a L R C ∧ (∀ r c, c < C → Before r c r0 c0 → Converts d r c) ∧
    LoadedUpTo a0 a level d C r0 c0

/-- The early exit of the loops of `LoadMap` at `(r0, c0)`: `std::stoi` throws there. -/
def LoadExit (a0 : List (List (List Int))) (level : Nat) (d : Document) (L R C r0 c0 : Nat)
    (e : Outcome × List (List (List Int))) : Prop :=
  (cellText d r0 c0).map stoi = some (Except.error e.1) ∧ LoadInv a0 level d L R C r0 c0 e.2

/-- A file of 2 rows of 2 cells: 1 and -2, then 30 and 4. -/
def file22 : Document := ⟨[[['1'], ['-', '2']], [['3', '0'], ['4']]]⟩

/-- The integers of `file22`. -/
def vals22 (r c : Nat) : Int :=
  if r = 0 then (if c = 0 then 1 else -2) else (if c = 0 then 30 else 4)

/-- A file of 1 row of 2 cells: 7, then a text that is no integer. -/
def fileBad : Document := ⟨[[['7'], ['x']]]⟩

/-- A file of 1 row of 1 cell: the integer 2147483648, one more than the greatest
`int`. -/
def fileBig : Document := ⟨[[['2', '1', '4', '7', '4', '8', '3', '6', '4', '8']]]⟩


/-- The state of the loops of `SaveMap` when they stand at `(r0, c0)`: the document is
a table of at most `R` rows and `C` columns, and its cells before `(r0, c0)` hold the
text of the cells of the level. -/
def SaveInv (a : List (List (List Int))) (level R C r0 c0 : Nat) (d : Document) : Prop :=
  (∃ r c, RectDoc d r c ∧ r ≤ R ∧ c ≤ C) ∧
    ∀ i j, j < C → Before i j r0 c0 →
      ∃ v, readCell a level i j = some v ∧ cellText d i j = some (ToStr v)

/-- A file of 2 rows of 1 cell: 7, then 8. -/
def file21 : Document := ⟨[[['7']], [['8']]]⟩


/-! # Theorems -/

/-! ## Machine integers -/

theorem usub_of_le {a b : Nat} (hb : b ≤ a) (ha : a < UINT_MOD) : usub a b = a - b := by
  unfold usub
  have hb' : b % UINT_MOD = b := Nat.mod_eq_of_lt (by omega)
  rw [hb']
  have h : a + UINT_MOD - b = (a - b) + UINT_MOD := by omega
  rw [h, Nat.add_mod_right]
  exact Nat.mod_eq_of_lt (by omega)

theorem invert_row {R row : Nat} (hrow : row < R) (hR : R < UINT_MOD) :
    usub (usub R row) 1 = R - row - 1 := by
  rw [usub_of_le (by omega) hR, usub_of_le (by omega) (by omega)]

/-! ## Cells of the array -/

theorem Shaped.level {a : List (List (List Int))} {L R C l : Nat} (h : Shaped a L R C)
    (hl : l < L) : ∃ lv, a[l]? = some lv ∧ lv.length = R ∧ ∀ rw ∈ lv, rw.length = C := by
  obtain ⟨h1, h2⟩ := h
  have hl' : l < a.length := by omega
  refine ⟨a[l], List.getElem?_eq_getElem hl', ?_⟩
  exact h2 _ (List.getElem_mem hl')

theorem Shaped.row {a : List (List (List Int))} {L R C l r : Nat} (h : Shaped a L R C)
    (hl : l < L) (hr : r < R) :
    ∃ lv rw, a[l]? = some lv ∧ lv[r]? = some rw ∧ lv.length = R ∧ rw.length = C := by
  obtain ⟨lv, h1, h2, h3⟩ := h.level hl
  have hr' : r < lv.length := by omega
  exact ⟨lv, lv[r], h1, List.getElem?_eq_getElem hr', h2, h3 _ (List.getElem_mem hr')⟩

theorem mem_set_cases {α : Type} {xs : List α} {i : Nat} {a x : α} (h : x ∈ xs.set i a) :
    x = a ∨ x ∈ xs := by
  rcases List.mem_iff_getElem?.mp h with ⟨n, hn⟩
  by_cases h1 : i = n
  · subst h1
    by_cases h2 : i < xs.length
    · rw [List.getElem?_set_self h2] at hn
      left; exact (Option.some.inj hn).symm
    · rw [List.set_eq_of_length_le (by omega)] at hn
      right; exact List.mem_iff_getElem?.mpr ⟨i, hn⟩
  · rw [List.getElem?_set_ne h1] at hn
    right; exact List.mem_iff_getElem?.mpr ⟨n, hn⟩

theorem writeCell_some {a : List (List (List Int))} {L R C l r c : Nat} (h : Shaped a L R C)
    (hl : l < L) (hr : r < R) (hc : c < C) (v : Int) :
    ∃ a', writeCell a l r c v = some a' ∧ Shaped a' L R C ∧
      ∀ l' r' c', readCell a' l' r' c' =
        if l' = l ∧ r' = r ∧ c' = c then some v else readCell a l' r' c' := by
  obtain ⟨lv, rw, h1, h2, h3, h4⟩ := h.row hl hr
  refine ⟨a.set l (lv.set r (rw.set c v)), ?_, ?_, ?_⟩
  · simp [writeCell, h1, h2, h4, hc]
  · refine ⟨by simpa using h.1, ?_⟩
    intro lv' hlv'
    rcases mem_set_cases hlv' with rfl | hmem
    · refine ⟨by simpa using h3, ?_⟩
      intro rw' hrw'
      rcases mem_set_cases hrw' with rfl | hmem'
      · simpa using h4
      · exact (h.2 lv (List.mem_iff_getElem?.mpr ⟨l, h1⟩)).2 rw' hmem'
    · exact h.2 lv' hmem
  · intro l' r' c'
    have hla : l < a.length := by rw [h.1]; exact hl
    have hrl : r < lv.length := by omega
    have hcr : c < rw.length := by omega
    unfold readCell
    by_cases e1 : l' = l
    · subst e1
      simp only [List.getElem?_set_self hla, h1]
      by_cases e2 : r' = r
      · subst e2
        simp only [List.getElem?_set_self hrl, h2]
        by_cases e3 : c' = c
        · subst e3
          simp [List.getElem?_set_self hcr]
        · simp [e3, List.getElem?_set_ne (Ne.symm e3)]
      · simp [e2, List.getElem?_set_ne (Ne.symm e2)]
    · simp [e1, List.getElem?_set_ne (Ne.symm e1)]

theorem readCell_some {a : List (List (List Int))} {L R C l r c : Nat} (h : Shaped a L R C)
    (hl : l < L) (hr : r < R) (hc : c < C) : ∃ v, readCell a l r c = some v := by
  obtain ⟨lv, rw, h1, h2, _, h4⟩ := h.row hl hr
  have hcr : c < rw.length := by omega
  exact ⟨rw[c], by simp [readCell, h1, h2, List.getElem?_eq_getElem hcr]⟩

/-! ## Init -/

theorem forLoop_set_getElem? {α : Type} (a : α) :
    ∀ (k i : Nat) (xs : List α), i + k = xs.length → ∀ j,
      (forLoop (fun n ys => ys.set n a) k i xs)[j]? =
        if i ≤ j ∧ j < i + k then some a else xs[j]? := by
  intro k
  induction k with
  | zero =>
    intro i xs _ j
    have : ¬ (i ≤ j ∧ j < i + 0) := by omega
    simp only [forLoop]
    rw [if_neg this]
  | succ k ih =>
    intro i xs hlen j
    have hlen' : i + 1 + k = (xs.set i a).length := by rw [List.length_set]; omega
    rw [forLoop, ih (i + 1) (xs.set i a) hlen' j, List.getElem?_set]
    have hi : i < xs.length := by omega
    by_cases h1 : i + 1 ≤ j ∧ j < i + 1 + k
    · have h2 : i ≤ j ∧ j < i + (k + 1) := by omega
      simp [h1, h2]
    · by_cases h3 : i = j
      · subst h3
        have h2 : i ≤ i ∧ i < i + (k + 1) := by omega
        simp [hi, h2]
      · have h2 : ¬ (i ≤ j ∧ j < i + (k + 1)) := by omega
        simp [h1, h2, h3]

theorem forLoop_set_replicate {α : Type} (a b : α) (n : Nat) :
    forLoop (fun i ys => ys.set i a) n 0 (List.replicate n b) = List.replicate n a := by
  apply List.ext_getElem?
  intro j
  rw [forLoop_set_getElem? a n 0 (List.replicate n b) (by simp) j]
  by_cases h : j < n
  · simp [h]
  · simp [h, List.getElem?_replicate]

theorem initGrid_eq (junk : Int) (L R C : Nat) :
    initGrid junk L R C = List.replicate L (List.replicate R (List.replicate C 0)) := by
  unfold initGrid initLevel initRow
  rw [forLoop_set_replicate, forLoop_set_replicate, forLoop_set_replicate]

theorem initGrid_shaped (junk : Int) (L R C : Nat) : Shaped (initGrid junk L R C) L R C := by
  rw [initGrid_eq]
  refine ⟨by simp, ?_⟩
  intro lv hlv
  rw [List.eq_of_mem_replicate hlv]
  refine ⟨by simp, ?_⟩
  intro rw hrw
  rw [List.eq_of_mem_replicate hrw]
  simp

theorem initGrid_readCell (junk : Int) {L R C l r c : Nat} (hl : l < L) (hr : r < R)
    (hc : c < C) : readCell (initGrid junk L R C) l r c = some 0 := by
  rw [initGrid_eq]
  simp [readCell, hl, hr, hc]


/-! ## The current level -/

/-- C8. `SetCurrentLevel(level)` makes `GetCurrentLevel()` return `level` when
`level < numLevels` and leaves it as it was otherwise; `SetCurrentLevel(numLevels)`
changes nothing, and the level-complete step of the scene,
`SetCurrentLevel(GetCurrentLevel() + 1)`, leaves the level unchanged on the last
level. -/
theorem SetCurrentLevel_level_bound (m : CMap2D) (level : Nat)
    (hN : m.uiNumLevels < UINT_MOD) :
    GetCurrentLevel (SetCurrentLevel m level) =
        (if level < m.uiNumLevels then level else GetCurrentLevel m) ∧
      SetCurrentLevel m m.uiNumLevels = m ∧
      (GetCurrentLevel m + 1 = m.uiNumLevels →
        GetCurrentLevel (levelCompleted m) = GetCurrentLevel m) := by
  refine ⟨?_, ?_, ?_⟩
  · unfold SetCurrentLevel GetCurrentLevel
    split_ifs <;> rfl
  · unfold SetCurrentLevel
    rw [if_neg (Nat.lt_irrefl _)]
  · intro hlast
    unfold levelCompleted SetCurrentLevel uadd
    rw [hlast, Nat.mod_eq_of_lt hN, if_neg (Nat.lt_irrefl _)]

theorem SetCurrentLevel_level_bound_witness :
    GetCurrentLevel (SetCurrentLevel (SetCurrentLevel (fresh 2 24 32) 1) 2) = 1 ∧
      GetCurrentLevel (levelCompleted (SetCurrentLevel (fresh 2 24 32) 1)) = 1 := by
  have h := SetCurrentLevel_level_bound (SetCurrentLevel (fresh 2 24 32) 1) 2 (by decide)
  exact ⟨by rw [h.1]; decide, h.2.2 (by decide)⟩

/-! ## Row inversion of the accessors -/

/-- C2. For `row < numRows` and `col < numCols`, `SetMapInfo(row, col, v, true)`
followed by `GetMapInfo(row, col, true)` returns `v`; the write gives the same map
as `SetMapInfo(numRows - row - 1, col, v, false)`, and `GetMapInfo(numRows - row - 1,
col, false)` returns `v` as well. -/
theorem SetMapInfo_GetMapInfo_invert (m : CMap2D) (L R C row col : Nat) (v : Int)
    (hS : Shaped m.arrMapInfo L R C) (hY : m.cSettings.NUM_TILES_YAXIS = R)
    (hR : R < UINT_MOD) (hL : m.uiCurLevel < L) (hrow : row < R) (hcol : col < C) :
    ∃ m', SetMapInfo m row col v true = some m' ∧
      GetMapInfo m' row col true = some v ∧
      SetMapInfo m (R - row - 1) col v false = some m' ∧
      GetMapInfo m' (R - row - 1) col false = some v := by
  obtain ⟨a', hw, _, hread⟩ := writeCell_some hS hL (show R - row - 1 < R by omega) hcol v
  refine ⟨{ m with arrMapInfo := a' }, ?_, ?_, ?_, ?_⟩
  · simp [SetMapInfo, hY, invert_row hrow hR, hw]
  · simp [GetMapInfo, hY, invert_row hrow hR, hread]
  · simp [SetMapInfo, hw]
  · simp [GetMapInfo, hread]

theorem SetMapInfo_GetMapInfo_invert_witness :
    ∃ m', SetMapInfo (fresh 2 24 32) 3 5 100 true = some m' ∧
      GetMapInfo m' 3 5 true = some 100 ∧
      SetMapInfo (fresh 2 24 32) (24 - 3 - 1) 5 100 false = some m' ∧
      GetMapInfo m' (24 - 3 - 1) 5 false = some 100 :=
  SetMapInfo_GetMapInfo_invert (fresh 2 24 32) 2 24 32 3 5 100 (initGrid_shaped 0 2 24 32)
    rfl (by decide) (by decide) (by decide) (by decide)

/-! ## Init -/

theorem loadAndRegister_kept (ld : String → Nat) (path : String) (key : Int) (m m' : CMap2D)
    (h : loadAndRegister ld path key m = Except.ok m' ∨
      loadAndRegister ld path key m = Except.error m') :
    m'.arrMapInfo = m.arrMapInfo ∧ m'.uiCurLevel = m.uiCurLevel ∧
      m'.uiNumLevels = m.uiNumLevels ∧ m'.cSettings = m.cSettings ∧ m'.doc = m.doc := by
  unfold loadAndRegister at h
  by_cases h0 : ld path = 0
  · simp [h0] at h
    subst h
    simp
  · simp [h0] at h
    subst h
    simp

theorem loadAndRegister_ok_iff (ld : String → Nat) (path : String) (key : Int) (m : CMap2D) :
    (∃ m', loadAndRegister ld path key m = Except.ok m') ↔ ld path ≠ 0 := by
  unfold loadAndRegister
  by_cases h0 : ld path = 0 <;> simp [h0]

theorem Init_kept (ld : String → Nat) (junk : Int) (m : CMap2D) (L R C : Nat) :
    (Init ld junk m L R C).2.arrMapInfo = initGrid junk L R C ∧
      (Init ld junk m L R C).2.uiCurLevel = 0 ∧
      (Init ld junk m L R C).2.uiNumLevels = L ∧
      (Init ld junk m L R C).2.cSettings.NUM_TILES_XAXIS = C ∧
      (Init ld junk m L R C).2.cSettings.NUM_TILES_YAXIS = R ∧
      (Init ld junk m L R C).2.doc = m.doc := by
  unfold Init
  simp only
  split
  · next m2 h2 =>
    have k2 := loadAndRegister_kept _ _ _ _ _ (Or.inr h2)
    simp [k2, UpdateSpecifications]
  · next m2 h2 =>
    have k2 := loadAndRegister_kept _ _ _ _ _ (Or.inl h2)
    split
    · next m3 h3 =>
      have k3 := loadAndRegister_kept _ _ _ _ _ (Or.inr h3)
      simp [k2, k3, UpdateSpecifications]
    · next m3 h3 =>
      have k3 := loadAndRegister_kept _ _ _ _ _ (Or.inl h3)
      split
      · next m4 h4 =>
        have k4 := loadAndRegister_kept _ _ _ _ _ (Or.inr h4)
        simp [k2, k3, k4, UpdateSpecifications]
      · next m4 h4 =>
        have k4 := loadAndRegister_kept _ _ _ _ _ (Or.inl h4)
        split
        · next m5 h5 =>
          have k5 := loadAndRegister_kept _ _ _ _ _ (Or.inr h5)
          simp [k2, k3, k4, k5, UpdateSpecifications]
        · next m5 h5 =>
          have k5 := loadAndRegister_kept _ _ _ _ _ (Or.inl h5)
          simp [k2, k3, k4, k5, UpdateSpecifications]

theorem Init_result (ld : String → Nat) (junk : Int) (m : CMap2D) (L R C : Nat) :
    (Init ld junk m L R C).1 = true ↔
      (ld groundTilePath ≠ 0 ∧ ld treeTilePath ≠ 0 ∧ ld spikesPath ≠ 0 ∧ ld spaPath ≠ 0) := by
  unfold Init
  simp only
  split
  · next m2 h2 =>
    have : ¬ ld groundTilePath ≠ 0 := fun hne =>
      by obtain ⟨m', hm'⟩ := (loadAndRegister_ok_iff ld _ 100 _).mpr hne; rw [hm'] at h2; cases h2
    simp at this
    simp [this]
  · next m2 h2 =>
    have e2 := (loadAndRegister_ok_iff ld _ _ _).mp ⟨m2, h2⟩
    split
    · next m3 h3 =>
      have : ¬ ld treeTilePath ≠ 0 := fun hne =>
        by obtain ⟨m', hm'⟩ := (loadAndRegister_ok_iff ld _ 2 m2).mpr hne; rw [hm'] at h3; cases h3
      simp at this
      simp [this]
    · next m3 h3 =>
      have e3 := (loadAndRegister_ok_iff ld _ _ _).mp ⟨m3, h3⟩
      split
      · next m4 h4 =>
        have : ¬ ld spikesPath ≠ 0 := fun hne =>
          by obtain ⟨m', hm'⟩ := (loadAndRegister_ok_iff ld _ 20 m3).mpr hne; rw [hm'] at h4; cases h4
        simp at this
        simp [this]
      · next m4 h4 =>
        have e4 := (loadAndRegister_ok_iff ld _ _ _).mp ⟨m4, h4⟩
        split
        · next m5 h5 =>
          have : ¬ ld spaPath ≠ 0 := fun hne =>
            by obtain ⟨m', hm'⟩ := (loadAndRegister_ok_iff ld _ 21 m4).mpr hne; rw [hm'] at h5; cases h5
          simp at this
          simp [this]
        · next m5 h5 =>
          have e5 := (loadAndRegister_ok_iff ld _ _ _).mp ⟨m5, h5⟩
          simp [e2, e3, e4, e5]

/-- C10. When the four textures load, `Init(numLevels, numRows, numCols)` returns
true, and afterwards every cell `(level, row, col)` with `level < numLevels`,
`row < numRows`, `col < numCols` holds 0, the current level is 0 and the settings hold
`NUM_TILES_XAXIS = numCols` and `NUM_TILES_YAXIS = numRows`; when one of the textures
does not load, `Init` returns false. -/
theorem Init_postcondition (LoadTextureGetID : String → Nat) (junk : Int) (m : CMap2D)
    (numLevels numRows numCols : Nat) :
    ((LoadTextureGetID groundTilePath ≠ 0 ∧ LoadTextureGetID treeTilePath ≠ 0 ∧
        LoadTextureGetID spikesPath ≠ 0 ∧ LoadTextureGetID spaPath ≠ 0) →
      (Init LoadTextureGetID junk m numLevels numRows numCols).1 = true ∧
      (∀ l r c, l < numLevels → r < numRows → c < numCols →
        readCell (Init LoadTextureGetID junk m numLevels numRows numCols).2.arrMapInfo l r c
          = some 0) ∧
      GetCurrentLevel (Init LoadTextureGetID junk m numLevels numRows numCols).2 = 0 ∧
      (Init LoadTextureGetID junk m numLevels numRows numCols).2.cSettings.NUM_TILES_XAXIS
        = numCols ∧
      (Init LoadTextureGetID junk m numLevels numRows numCols).2.cSettings.NUM_TILES_YAXIS
        = numRows) ∧
    ((LoadTextureGetID groundTilePath = 0 ∨ LoadTextureGetID treeTilePath = 0 ∨
        LoadTextureGetID spikesPath = 0 ∨ LoadTextureGetID spaPath = 0) →
      (Init LoadTextureGetID junk m numLevels numRows numCols).1 = false) := by
  have hk := Init_kept LoadTextureGetID junk m numLevels numRows numCols
  have hr := Init_result LoadTextureGetID junk m numLevels numRows numCols
  refine ⟨fun hall => ⟨hr.mpr hall, ?_, hk.2.1, hk.2.2.2.1, hk.2.2.2.2.1⟩, fun hany => ?_⟩
  · intro l r c hl hrw hc
    rw [hk.1]
    exact initGrid_readCell junk hl hrw hc
  · cases hb : (Init LoadTextureGetID junk m numLevels numRows numCols).1
    · rfl
    · have := hr.mp hb
      omega

theorem Init_postcondition_witness :
    (Init loaderOK 7 (constructed defaultSettings) 2 24 32).1 = true ∧
      readCell (Init loaderOK 7 (constructed defaultSettings) 2 24 32).2.arrMapInfo 1 23 31
        = some 0 ∧
      (Init loaderNoSpikes 7 (constructed defaultSettings) 2 24 32).1 = false := by
  have h1 := (Init_postcondition loaderOK 7 (constructed defaultSettings) 2 24 32).1
    (by decide)
  have h2 := (Init_postcondition loaderNoSpikes 7 (constructed defaultSettings) 2 24 32).2
    (by decide)
  exact ⟨h1.1, h1.2.1 1 23 31 (by decide) (by decide) (by decide), h2⟩


/-! ## Loops -/

theorem forLoopE_inv {ε σ : Type} (body : Nat → σ → Except ε σ) (n : Nat)
    (Inv : Nat → σ → Prop) (Exit : ε → Prop)
    (hstep : ∀ j s, j < n → Inv j s → postE Exit (Inv (j + 1)) (body j s)) :
    ∀ (k i : Nat) (s : σ), i + k = n → Inv i s → postE Exit (Inv n) (forLoopE body k i s) := by
  intro k
  induction k with
  | zero =>
    intro i s hik hinv
    have : i = n := by omega
    subst this
    exact hinv
  | succ k ih =>
    intro i s hik hinv
    have hs := hstep i s (by omega) hinv
    unfold forLoopE
    cases hb : body i s with
    | ok s' =>
      rw [hb] at hs
      exact ih (i + 1) s' (by omega) hs
    | error e =>
      rw [hb] at hs
      exact hs

/-! ## Dimension check of LoadMap -/

/-- C5. When the row count of the file differs from `NUM_TILES_YAXIS` or its column
count differs from `NUM_TILES_XAXIS`, `LoadMap` returns false and the array of cells
is the one it was before the call. The counts of the file are `unsigned int` values. -/
theorem LoadMap_dimension_mismatch (m : CMap2D) (file : Document) (level : Nat)
    (hcols : file.GetColumnCount < UINT_MOD) (hrows : file.GetRowCount < UINT_MOD)
    (h : file.GetRowCount ≠ m.cSettings.NUM_TILES_YAXIS ∨
      file.GetColumnCount ≠ m.cSettings.NUM_TILES_XAXIS) :
    (LoadMap m file level).1 = Outcome.returned false ∧
      (LoadMap m file level).2.arrMapInfo = m.arrMapInfo ∧
      (LoadMap m file level).2.uiCurLevel = m.uiCurLevel := by
  unfold LoadMap
  simp only [Nat.mod_eq_of_lt hcols, Nat.mod_eq_of_lt hrows]
  have hcond : m.cSettings.NUM_TILES_XAXIS ≠ file.GetColumnCount ∨
      m.cSettings.NUM_TILES_YAXIS ≠ file.GetRowCount := by
    rcases h with h | h
    · exact Or.inr (Ne.symm h)
    · exact Or.inl (Ne.symm h)
  rw [if_pos hcond]
  exact ⟨rfl, rfl, rfl⟩

theorem LoadMap_dimension_mismatch_witness :
    (LoadMap (fresh 2 24 32) file23 0).1 = Outcome.returned false ∧
      (LoadMap (fresh 2 24 32) file23 0).2.arrMapInfo = (fresh 2 24 32).arrMapInfo ∧
      (LoadMap (fresh 2 24 32) file23 0).2.uiCurLevel = (fresh 2 24 32).uiCurLevel :=
  LoadMap_dimension_mismatch (fresh 2 24 32) file23 0 (by decide) (by decide)
    (Or.inl (by decide))

/-! ## FindValue -/

theorem findCell_step (m : CMap2D) (iValue : Int) (bInvert : Bool) (L R C uiRow : Nat)
    (hS : Shaped m.arrMapInfo L R C) (hL : m.uiCurLevel < L) (hrow : uiRow < R) :
    ∀ (j : Nat) (s : Unit), j < C →
      (∀ c, c < j → readCell m.arrMapInfo m.uiCurLevel uiRow c ≠ some iValue) →
      postE
        (fun e => ∃ c0, c0 < C ∧
          readCell m.arrMapInfo m.uiCurLevel uiRow c0 = some iValue ∧
          (∀ c, c < c0 → readCell m.arrMapInfo m.uiCurLevel uiRow c ≠ some iValue) ∧
          e = FindResult.found
            (if bInvert then usub (usub m.cSettings.NUM_TILES_YAXIS uiRow) 1 else uiRow) c0)
        (fun _ => ∀ c, c < j + 1 → readCell m.arrMapInfo m.uiCurLevel uiRow c ≠ some iValue)
        (findCell m iValue bInvert uiRow j s) := by
  intro j s hj hinv
  obtain ⟨w, hw⟩ := readCell_some hS hL hrow hj
  unfold findCell
  rw [hw]
  by_cases hv : w = iValue
  · subst hv
    simp only [if_true]
    cases bInvert
    · exact ⟨j, hj, hw, hinv, by simp⟩
    · exact ⟨j, hj, hw, hinv, by simp⟩
  · simp only [if_neg hv]
    intro c hc
    by_cases hcj : c = j
    · subst hcj
      rw [hw]
      intro h
      exact hv (Option.some.inj h)
    · exact hinv c (by omega)

theorem FindValue_cases (m : CMap2D) (L R C : Nat) (iValue : Int) (bInvert : Bool)
    (hS : Shaped m.arrMapInfo L R C) (hX : m.cSettings.NUM_TILES_XAXIS = C)
    (hY : m.cSettings.NUM_TILES_YAXIS = R) (hL : m.uiCurLevel < L) :
    (FindValue m iValue bInvert = FindResult.notFound ∧
      ∀ r c, r < R → c < C → readCell m.arrMapInfo m.uiCurLevel r c ≠ some iValue) ∨
    (∃ r0 c0, r0 < R ∧ c0 < C ∧
      readCell m.arrMapInfo m.uiCurLevel r0 c0 = some iValue ∧
      (∀ r c, r < R → c < C → (r < r0 ∨ (r = r0 ∧ c < c0)) →
        readCell m.arrMapInfo m.uiCurLevel r c ≠ some iValue) ∧
      FindValue m iValue bInvert = FindResult.found
        (if bInvert then usub (usub R r0) 1 else r0) c0) := by
  have hloop := forLoopE_inv
    (fun uiRow u => forLoopE (findCell m iValue bInvert uiRow) m.cSettings.NUM_TILES_XAXIS 0 u)
    R
    (fun j _ => ∀ r c, r < j → c < C → readCell m.arrMapInfo m.uiCurLevel r c ≠ some iValue)
    (fun e => ∃ r0 c0, r0 < R ∧ c0 < C ∧
      readCell m.arrMapInfo m.uiCurLevel r0 c0 = some iValue ∧
      (∀ r c, r < R → c < C → (r < r0 ∨ (r = r0 ∧ c < c0)) →
        readCell m.arrMapInfo m.uiCurLevel r c ≠ some iValue) ∧
      e = FindResult.found (if bInvert then usub (usub R r0) 1 else r0) c0)
    (by
      intro j s hj hinv
      have hin := forLoopE_inv (findCell m iValue bInvert j) C _ _
        (findCell_step m iValue bInvert L R C j hS hL hj) C 0 s (by omega)
        (by intro c hc; omega)
      simp only [hX]
      cases hres : forLoopE (findCell m iValue bInvert j) C 0 s with
      | ok u =>
        rw [hres] at hin
        intro r c hr hc
        by_cases hrj : r = j
        · subst hrj
          exact hin c hc
        · exact hinv r c (by omega) hc
      | error e =>
        rw [hres] at hin
        obtain ⟨c0, hc0, hval, hbefore, he⟩ := hin
        refine ⟨j, c0, hj, hc0, hval, ?_, by rw [he, hY]⟩
        intro r c _ hc hlt
        rcases hlt with hlt | ⟨hlt, hlt'⟩
        · exact hinv r c hlt hc
        · subst hlt
          exact hbefore c hlt')
    R 0 () (by omega) (by intro r c hr; omega)
  unfold FindValue
  rw [hY]
  cases hres : forLoopE
      (fun uiRow u => forLoopE (findCell m iValue bInvert uiRow) m.cSettings.NUM_TILES_XAXIS 0 u)
      R 0 () with
  | ok u =>
    rw [hres] at hloop
    exact Or.inl ⟨rfl, fun r c hr hc => hloop r c hr hc⟩
  | error e =>
    rw [hres] at hloop
    obtain ⟨r0, c0, h1, h2, h3, h4, h5⟩ := hloop
    exact Or.inr ⟨r0, c0, h1, h2, h3, h4, h5⟩

/-- C3. `FindValue(value, invert)` reports found exactly when some cell of the
current level holds `value`; the position it reports is `(r0, c0)`, the first
position holding `value` in row-major order of the storage, with the row given as
`numRows - r0 - 1` when `invert` is true. -/
theorem FindValue_first_match (m : CMap2D) (L R C : Nat) (iValue : Int) (bInvert : Bool)
    (hS : Shaped m.arrMapInfo L R C) (hX : m.cSettings.NUM_TILES_XAXIS = C)
    (hY : m.cSettings.NUM_TILES_YAXIS = R) (hR : R < UINT_MOD) (hL : m.uiCurLevel < L) :
    ((∃ uirRow uirCol, FindValue m iValue bInvert = FindResult.found uirRow uirCol) ↔
      ∃ r c, r < R ∧ c < C ∧ readCell m.arrMapInfo m.uiCurLevel r c = some iValue) ∧
    ((¬ ∃ r c, r < R ∧ c < C ∧ readCell m.arrMapInfo m.uiCurLevel r c = some iValue) →
      FindValue m iValue bInvert = FindResult.notFound) ∧
    (∀ uirRow uirCol, FindValue m iValue bInvert = FindResult.found uirRow uirCol →
      ∃ r0, r0 < R ∧ uirCol < C ∧
        readCell m.arrMapInfo m.uiCurLevel r0 uirCol = some iValue ∧
        (∀ r c, r < R → c < C → (r < r0 ∨ (r = r0 ∧ c < uirCol)) →
          readCell m.arrMapInfo m.uiCurLevel r c ≠ some iValue) ∧
        uirRow = if bInvert then R - r0 - 1 else r0) := by
  rcases FindValue_cases m L R C iValue bInvert hS hX hY hL with
    ⟨hnf, hnone⟩ | ⟨r0, c0, hr0, hc0, hval, hfirst, hf⟩
  · refine ⟨⟨?_, ?_⟩, fun _ => hnf, ?_⟩
    · rintro ⟨a, b, hab⟩
      rw [hnf] at hab
      cases hab
    · rintro ⟨r, c, hr, hc, hrc⟩
      exact absurd hrc (hnone r c hr hc)
    · intro a b hab
      rw [hnf] at hab
      cases hab
  · refine ⟨⟨fun _ => ⟨r0, c0, hr0, hc0, hval⟩, fun _ => ⟨_, _, hf⟩⟩, ?_, ?_⟩
    · intro hno
      exact absurd ⟨r0, c0, hr0, hc0, hval⟩ hno
    · intro a b hab
      rw [hf] at hab
      injection hab with ha hb
      subst hb
      refine ⟨r0, hr0, hc0, hval, hfirst, ?_⟩
      rw [← ha]
      cases bInvert
      · simp
      · simp [invert_row hr0 hR]

theorem FindValue_first_match_witness :
    FindValue twoMatches 100 false = FindResult.found 0 5 ∧
      ∃ r0, r0 < 3 ∧ 5 < 6 ∧
        readCell twoMatches.arrMapInfo twoMatches.uiCurLevel r0 5 = some 100 ∧
        (∀ r c, r < 3 → c < 6 → (r < r0 ∨ (r = r0 ∧ c < 5)) →
          readCell twoMatches.arrMapInfo twoMatches.uiCurLevel r c ≠ some 100) ∧
        0 = if false = true then 3 - r0 - 1 else r0 :=
  ⟨by decide,
    (FindValue_first_match twoMatches 1 3 6 100 false (by unfold Shaped; decide) (by decide)
      (by decide) (by decide) (by decide)).2.2 0 5 (by decide)⟩


/-! ## Rendering -/

theorem RenderTile_step (m : CMap2D) (L R C uiRow : Nat)
    (hS : Shaped m.arrMapInfo L R C) (hL : m.uiCurLevel < L) (hrow : uiRow < R) :
    ∀ (j : Nat) (calls : List DrawCall), j < C → RenderedUpTo m C uiRow j calls →
      postE
        (fun e => ∃ c0, c0 < C ∧ ¬ LookupFine m uiRow c0 ∧ RenderedUpTo m C uiRow c0 e.2)
        (RenderedUpTo m C uiRow (j + 1))
        (RenderTile m uiRow j calls) := by
  intro j calls hj hinv
  obtain ⟨w, hw⟩ := readCell_some hS hL hrow hj
  have hbefore : ∀ r c, Before r c uiRow (j + 1) ↔ (Before r c uiRow j ∨ (r = uiRow ∧ c = j)) := by
    intro r c
    unfold Before
    omega
  unfold RenderTile
  rw [hw]
  by_cases hrange : 0 < w ∧ w < 200
  · simp only [if_pos hrange]
    cases hlook : mapAt m.MapOfTextureIDs w with
    | none =>
      refine ⟨j, hj, ?_, hinv⟩
      intro hfine
      exact hfine w hw hrange.1 hrange.2 hlook
    | some t =>
      refine ⟨?_, ?_⟩
      · intro r c hc hb
        rcases (hbefore r c).mp hb with hb | ⟨rfl, rfl⟩
        · exact hinv.1 r c hc hb
        · intro w' hw' _ _
          rw [hw] at hw'
          cases hw'
          rw [hlook]
          simp
      · intro d
        rw [List.mem_append, hinv.2 d, hbefore]
        constructor
        · rintro (⟨h1, h2, h3⟩ | hd)
          · exact ⟨h1, Or.inl h2, h3⟩
          · simp only [List.mem_singleton] at hd
            subst hd
            exact ⟨hj, Or.inr ⟨rfl, rfl⟩, w, hw, hrange.1, hrange.2, hlook⟩
        · rintro ⟨h1, h2 | ⟨h2, h3⟩, h4⟩
          · exact Or.inl ⟨h1, h2, h4⟩
          · right
            obtain ⟨v, hv, _, _, hvt⟩ := h4
            rw [h2, h3, hw] at hv
            cases hv
            rw [hlook] at hvt
            cases d
            simp only at h2 h3 hvt
            simp [h2, h3, Option.some.inj hvt]
  · simp only [if_neg hrange]
    refine ⟨?_, ?_⟩
    · intro r c hc hb
      rcases (hbefore r c).mp hb with hb | ⟨rfl, rfl⟩
      · exact hinv.1 r c hc hb
      · intro w' hw' h1 h2
        rw [hw] at hw'
        cases hw'
        exact absurd ⟨h1, h2⟩ hrange
    · intro d
      rw [hinv.2 d, hbefore]
      constructor
      · rintro ⟨h1, h2, h3⟩
        exact ⟨h1, Or.inl h2, h3⟩
      · rintro ⟨h1, h2 | ⟨h2, h3⟩, h4⟩
        · exact ⟨h1, h2, h4⟩
        · obtain ⟨v, hv, hv1, hv2, _⟩ := h4
          rw [h2, h3, hw] at hv
          cases hv
          exact absurd ⟨hv1, hv2⟩ hrange

theorem Render_cases (m : CMap2D) (L R C : Nat)
    (hS : Shaped m.arrMapInfo L R C) (hX : m.cSettings.NUM_TILES_XAXIS = C)
    (hY : m.cSettings.NUM_TILES_YAXIS = R) (hL : m.uiCurLevel < L) :
    ((Render m).1 = none ∧ RenderedUpTo m C R 0 (Render m).2) ∨
    (∃ r0 c0, r0 < R ∧ c0 < C ∧ ¬ LookupFine m r0 c0 ∧ (Render m).1 ≠ none ∧
      RenderedUpTo m C r0 c0 (Render m).2) := by
  have hloop := forLoopE_inv
    (fun uiRow calls => forLoopE (RenderTile m uiRow) m.cSettings.NUM_TILES_XAXIS 0 calls)
    R
    (fun j calls => RenderedUpTo m C j 0 calls)
    (fun e => ∃ r0 c0, r0 < R ∧ c0 < C ∧ ¬ LookupFine m r0 c0 ∧ RenderedUpTo m C r0 c0 e.2)
    (by
      intro j calls hj hinv
      have hin := forLoopE_inv (RenderTile m j) C _ _
        (RenderTile_step m L R C j hS hL hj) C 0 calls (by omega) hinv
      simp only [hX]
      cases hres : forLoopE (RenderTile m j) C 0 calls with
      | ok calls' =>
        rw [hres] at hin
        have hb : ∀ r c, c < C → (Before r c (j + 1) 0 ↔ Before r c j C) := by
          intro r c hc
          unfold Before
          omega
        refine ⟨?_, ?_⟩
        · intro r c hc hbf
          exact hin.1 r c hc ((hb r c hc).mp hbf)
        · intro d
          rw [hin.2 d]
          constructor
          · rintro ⟨h1, h2, h3⟩
            exact ⟨h1, (hb _ _ h1).mpr h2, h3⟩
          · rintro ⟨h1, h2, h3⟩
            exact ⟨h1, (hb _ _ h1).mp h2, h3⟩
      | error e =>
        rw [hres] at hin
        obtain ⟨c0, hc0, hbad, hup⟩ := hin
        exact ⟨j, c0, hj, hc0, hbad, hup⟩)
    R 0 [] (by omega)
    ⟨by intro r c _ hb; unfold Before at hb; omega,
      by intro d; simp only [List.not_mem_nil, false_iff]; unfold Before; omega⟩
  unfold Render
  rw [hY]
  cases hres : forLoopE
      (fun uiRow calls => forLoopE (RenderTile m uiRow) m.cSettings.NUM_TILES_XAXIS 0 calls)
      R 0 [] with
  | ok calls =>
    rw [hres] at hloop
    exact Or.inl ⟨rfl, hloop⟩
  | error e =>
    rw [hres] at hloop
    obtain ⟨r0, c0, h1, h2, h3, h4⟩ := hloop
    obtain ⟨o, calls⟩ := e
    exact Or.inr ⟨r0, c0, h1, h2, h3, by simp, h4⟩

/-- C4, as the code has it. `Render` issues a draw call for the cell `(row, col)`
exactly when its value is in 1..199 and the texture registry has an entry for the
value of every cell in 1..199 from the first cell up to `(row, col)` in row-major
order (a lookup without entry throws and ends the rendering). In particular no draw
call is issued for a value `<= 0` or `>= 200`. -/
theorem Render_range_gating (m : CMap2D) (L R C row col : Nat) (v : Int)
    (hS : Shaped m.arrMapInfo L R C) (hX : m.cSettings.NUM_TILES_XAXIS = C)
    (hY : m.cSettings.NUM_TILES_YAXIS = R) (hL : m.uiCurLevel < L)
    (hrow : row < R) (hcol : col < C)
    (hv : readCell m.arrMapInfo m.uiCurLevel row col = some v) :
    ((∃ t, (⟨row, col, t⟩ : DrawCall) ∈ (Render m).2) ↔
      (0 < v ∧ v < 200 ∧
        ∀ r c, r < R → c < C → (r < row ∨ (r = row ∧ c ≤ col)) → LookupFine m r c)) ∧
    ((v ≤ 0 ∨ 200 ≤ v) → ¬ ∃ t, (⟨row, col, t⟩ : DrawCall) ∈ (Render m).2) := by
  have key : (∃ t, (⟨row, col, t⟩ : DrawCall) ∈ (Render m).2) ↔
      (0 < v ∧ v < 200 ∧
        ∀ r c, r < R → c < C → (r < row ∨ (r = row ∧ c ≤ col)) → LookupFine m r c) := by
    have hdraw : ∀ t, Draws m ⟨row, col, t⟩ ↔
        (0 < v ∧ v < 200 ∧ mapAt m.MapOfTextureIDs v = some t) := by
      intro t
      unfold Draws
      simp only [hv]
      constructor
      · rintro ⟨w, hw, h1, h2, h3⟩
        cases hw
        exact ⟨h1, h2, h3⟩
      · rintro ⟨h1, h2, h3⟩
        exact ⟨v, rfl, h1, h2, h3⟩
    rcases Render_cases m L R C hS hX hY hL with ⟨_, hup⟩ | ⟨r0, c0, hr0, hc0, hbad, _, hup⟩
    · constructor
      · rintro ⟨t, ht⟩
        obtain ⟨_, _, hd⟩ := (hup.2 _).mp ht
        obtain ⟨h1, h2, _⟩ := (hdraw t).mp hd
        refine ⟨h1, h2, ?_⟩
        intro r c hr hc _
        exact hup.1 r c hc (Or.inl hr)
      · rintro ⟨h1, h2, hfine⟩
        have hne := hfine row col hrow hcol (Or.inr ⟨rfl, Nat.le_refl _⟩) v hv h1 h2
        obtain ⟨t, ht⟩ := Option.ne_none_iff_exists'.mp hne
        exact ⟨t, (hup.2 _).mpr ⟨hcol, Or.inl hrow, (hdraw t).mpr ⟨h1, h2, ht⟩⟩⟩
    · constructor
      · rintro ⟨t, ht⟩
        obtain ⟨_, hb, hd⟩ := (hup.2 _).mp ht
        obtain ⟨h1, h2, _⟩ := (hdraw t).mp hd
        refine ⟨h1, h2, ?_⟩
        intro r c _ hc hle
        apply hup.1 r c hc
        unfold Before at hb ⊢
        simp only at hb
        omega
      · rintro ⟨h1, h2, hfine⟩
        have hne := hfine row col hrow hcol (Or.inr ⟨rfl, Nat.le_refl _⟩) v hv h1 h2
        obtain ⟨t, ht⟩ := Option.ne_none_iff_exists'.mp hne
        have hb : Before row col r0 c0 := by
          by_contra hnb
          apply hbad
          apply hfine r0 c0 hr0 hc0
          unfold Before at hnb
          omega
        exact ⟨t, (hup.2 _).mpr ⟨hcol, hb, (hdraw t).mpr ⟨h1, h2, ht⟩⟩⟩
  refine ⟨key, ?_⟩
  intro hout hex
  have := key.mp hex
  omega

theorem Render_range_gating_witness :
    ((∃ t, (⟨0, 5, t⟩ : DrawCall) ∈ (Render twoMatches).2) ↔
      ((0 : Int) < 100 ∧ (100 : Int) < 200 ∧
        ∀ r c, r < 3 → c < 6 → (r < 0 ∨ (r = 0 ∧ c ≤ 5)) → LookupFine twoMatches r c)) ∧
    (((100 : Int) ≤ 0 ∨ (200 : Int) ≤ 100) → ¬ ∃ t, (⟨0, 5, t⟩ : DrawCall) ∈ (Render twoMatches).2) :=
  Render_range_gating twoMatches 1 3 6 0 5 100 (by unfold Shaped; decide) (by decide)
    (by decide) (by decide) (by decide) (by decide) (by decide)

/-- C4, as stated, fails: the cell of `unregisteredTile` holds 1, a value in 1..199,
and `Render` issues no draw call for it; the lookup of its texture throws. -/
theorem Render_range_gating_counterexample :
    SetMapInfo (fresh 1 1 1) 0 0 1 false = some unregisteredTile ∧
      readCell unregisteredTile.arrMapInfo unregisteredTile.uiCurLevel 0 0 = some 1 ∧
      Render unregisteredTile = (some Outcome.out_of_range, []) ∧
      ¬ ((∃ t, (⟨0, 0, t⟩ : DrawCall) ∈ (Render unregisteredTile).2) ↔
        ((0 : Int) < 1 ∧ (1 : Int) < 200)) := by
  refine ⟨by decide, by decide, by decide, ?_⟩
  have h : (Render unregisteredTile).2 = [] := by decide
  rw [h]
  simp


/-! ## Dimensions under the public operations -/

theorem writeCell_shaped {a a' : List (List (List Int))} {L R C l r c : Nat} {v : Int}
    (h : Shaped a L R C) (hw : writeCell a l r c v = some a') : Shaped a' L R C := by
  unfold writeCell at hw
  cases h1 : a[l]? with
  | none => simp [h1] at hw
  | some lv =>
    cases h2 : lv[r]? with
    | none => simp [h1, h2] at hw
    | some rw =>
      simp only [h1, h2] at hw
      by_cases hc : c < rw.length
      · rw [if_pos hc] at hw
        cases hw
        have hlv := h.2 lv (List.mem_iff_getElem?.mpr ⟨l, h1⟩)
        have hrw := hlv.2 rw (List.mem_iff_getElem?.mpr ⟨r, h2⟩)
        refine ⟨by simpa using h.1, ?_⟩
        intro lv' hlv'
        rcases mem_set_cases hlv' with rfl | hmem
        · refine ⟨by simpa using hlv.1, ?_⟩
          intro rw' hrw'
          rcases mem_set_cases hrw' with rfl | hmem'
          · simpa using hrw
          · exact hlv.2 rw' hmem'
        · exact h.2 lv' hmem
      · rw [if_neg hc] at hw
        cases hw

theorem LoadMap_kept (m : CMap2D) (file : Document) (level L R C : Nat)
    (hS : Shaped m.arrMapInfo L R C) :
    Shaped (LoadMap m file level).2.arrMapInfo L R C ∧
      (LoadMap m file level).2.uiNumLevels = m.uiNumLevels ∧
      (LoadMap m file level).2.uiCurLevel = m.uiCurLevel ∧
      (LoadMap m file level).2.cSettings = m.cSettings ∧
      (LoadMap m file level).2.MapOfTextureIDs = m.MapOfTextureIDs := by
  unfold LoadMap
  simp only
  split_ifs with hdim
  · exact ⟨hS, rfl, rfl, rfl, rfl⟩
  · have hloop := forLoopE_inv
      (loadRow file m.cSettings.NUM_TILES_XAXIS level) m.cSettings.NUM_TILES_YAXIS
      (fun _ a => Shaped a L R C) (fun e => Shaped e.2 L R C)
      (by
        intro j a _ ha
        unfold loadRow
        cases hrow : file.GetRow j with
        | none => exact ha
        | some row =>
          simp only
          exact forLoopE_inv (loadCell row level j) m.cSettings.NUM_TILES_XAXIS
            (fun _ a => Shaped a L R C) (fun e => Shaped e.2 L R C)
            (by
              intro i b _ hb
              unfold loadCell
              cases hcell : row[i]? with
              | none => exact hb
              | some cell =>
                simp only
                cases hst : stoi cell with
                | error e => exact hb
                | ok v =>
                  simp only
                  cases hw : writeCell b level j i v with
                  | none => exact hb
                  | some b' => exact writeCell_shaped hb hw)
            m.cSettings.NUM_TILES_XAXIS 0 a (by omega) ha)
      m.cSettings.NUM_TILES_YAXIS 0 m.arrMapInfo (by omega) hS
    cases hres : forLoopE (loadRow file m.cSettings.NUM_TILES_XAXIS level)
        m.cSettings.NUM_TILES_YAXIS 0 m.arrMapInfo with
    | ok a =>
      rw [hres] at hloop
      exact ⟨hloop, rfl, rfl, rfl, rfl⟩
    | error e =>
      rw [hres] at hloop
      obtain ⟨o, a⟩ := e
      exact ⟨hloop, rfl, rfl, rfl, rfl⟩

theorem SaveMap_kept (m : CMap2D) (level : Nat) :
    (SaveMap m level).state.arrMapInfo = m.arrMapInfo ∧
      (SaveMap m level).state.uiNumLevels = m.uiNumLevels ∧
      (SaveMap m level).state.uiCurLevel = m.uiCurLevel ∧
      (SaveMap m level).state.cSettings = m.cSettings ∧
      (SaveMap m level).state.MapOfTextureIDs = m.MapOfTextureIDs := by
  unfold SaveMap
  split
  · exact ⟨rfl, rfl, rfl, rfl, rfl⟩
  · exact ⟨rfl, rfl, rfl, rfl, rfl⟩

theorem step_kept (m m' : CMap2D) (op : Op) (L R C : Nat) (hS : Shaped m.arrMapInfo L R C)
    (hstep : step m op = some m') :
    Shaped m'.arrMapInfo L R C ∧ m'.uiNumLevels = m.uiNumLevels ∧
      (¬ changesTiles op →
        m'.cSettings.NUM_TILES_XAXIS = m.cSettings.NUM_TILES_XAXIS ∧
        m'.cSettings.NUM_TILES_YAXIS = m.cSettings.NUM_TILES_YAXIS) := by
  cases op with
  | SetMapInfo r c v b =>
    simp only [step, SetMapInfo] at hstep
    cases b
    · simp only [Bool.false_eq_true, if_false, Option.map_eq_some'] at hstep
      obtain ⟨a, ha, rfl⟩ := hstep
      exact ⟨writeCell_shaped hS ha, rfl, fun _ => ⟨rfl, rfl⟩⟩
    · simp only [if_true, Option.map_eq_some'] at hstep
      obtain ⟨a, ha, rfl⟩ := hstep
      exact ⟨writeCell_shaped hS ha, rfl, fun _ => ⟨rfl, rfl⟩⟩
  | GetMapInfo r c b =>
    simp only [step, Option.map_eq_some'] at hstep
    obtain ⟨_, _, rfl⟩ := hstep
    exact ⟨hS, rfl, fun _ => ⟨rfl, rfl⟩⟩
  | FindValue v b =>
    simp only [step] at hstep
    split_ifs at hstep
    cases hstep
    exact ⟨hS, rfl, fun _ => ⟨rfl, rfl⟩⟩
  | SetCurrentLevel l =>
    simp only [step, Option.some.injEq] at hstep
    subst hstep
    unfold SetCurrentLevel
    split_ifs
    · exact ⟨hS, rfl, fun _ => ⟨rfl, rfl⟩⟩
    · exact ⟨hS, rfl, fun _ => ⟨rfl, rfl⟩⟩
  | SetNumTiles ax v =>
    simp only [step, Option.some.injEq] at hstep
    subst hstep
    unfold SetNumTiles
    split_ifs with hv
    · exact ⟨hS, rfl, fun _ => ⟨rfl, rfl⟩⟩
    · cases ax
      · exact ⟨hS, rfl, fun hn => absurd ⟨by omega, Or.inl rfl⟩ hn⟩
      · exact ⟨hS, rfl, fun hn => absurd ⟨by omega, Or.inr rfl⟩ hn⟩
      · exact ⟨hS, rfl, fun _ => ⟨rfl, rfl⟩⟩
      · exact ⟨hS, rfl, fun _ => ⟨rfl, rfl⟩⟩
  | SetNumSteps ax v =>
    simp only [step, Option.some.injEq] at hstep
    subst hstep
    unfold SetNumSteps
    split_ifs with hv
    · exact ⟨hS, rfl, fun _ => ⟨rfl, rfl⟩⟩
    · cases ax
      · exact ⟨hS, rfl, fun _ => ⟨rfl, rfl⟩⟩
      · exact ⟨hS, rfl, fun _ => ⟨rfl, rfl⟩⟩
      · exact ⟨hS, rfl, fun _ => ⟨rfl, rfl⟩⟩
      · exact ⟨hS, rfl, fun _ => ⟨rfl, rfl⟩⟩
  | LoadMap file l =>
    simp only [step] at hstep
    split_ifs at hstep
    cases hstep
    have hk := LoadMap_kept m file l L R C hS
    exact ⟨hk.1, hk.2.1, fun _ => by rw [hk.2.2.2.1]; exact ⟨rfl, rfl⟩⟩
  | SaveMap l =>
    simp only [step] at hstep
    split_ifs at hstep
    cases hstep
    have hk := SaveMap_kept m l
    exact ⟨by rw [hk.1]; exact hS, hk.2.1, fun _ => by rw [hk.2.2.2.1]; exact ⟨rfl, rfl⟩⟩

theorem run_kept (L R C : Nat) (ops : List Op) :
    ∀ (m m' : CMap2D), Shaped m.arrMapInfo L R C → run m ops = some m' →
      Shaped m'.arrMapInfo L R C ∧ m'.uiNumLevels = m.uiNumLevels ∧
      ((∀ op ∈ ops, ¬ changesTiles op) →
        m'.cSettings.NUM_TILES_XAXIS = m.cSettings.NUM_TILES_XAXIS ∧
        m'.cSettings.NUM_TILES_YAXIS = m.cSettings.NUM_TILES_YAXIS) := by
  induction ops with
  | nil =>
    intro m m' hS hrun
    simp only [run, Option.some.injEq] at hrun
    subst hrun
    exact ⟨hS, rfl, fun _ => ⟨rfl, rfl⟩⟩
  | cons op ops ih =>
    intro m m' hS hrun
    unfold run at hrun
    cases hst : step m op with
    | none => simp [hst] at hrun
    | some m1 =>
      simp only [hst] at hrun
      have h1 := step_kept m m1 op L R C hS hst
      have h2 := ih m1 m' h1.1 hrun
      refine ⟨h2.1, by rw [h2.2.1, h1.2.1], ?_⟩
      intro hno
      have h3 := h1.2.2 (hno op (List.mem_cons_self _ _))
      have h4 := h2.2.2 (fun o ho => hno o (List.mem_cons_of_mem _ ho))
      exact ⟨by rw [h4.1, h3.1], by rw [h4.2, h3.2]⟩

/-- C9, as the code has it. After `Init(numLevels, numRows, numCols)`, every sequence of
the public operations leaves the level count `numLevels` and the array of cells with
its allocated sizes; the tile counts of the settings, which the row inversion of the
accessors, `FindValue`, `LoadMap`, `SaveMap` and `Render` use, stay `numCols` and
`numRows` when the sequence has no `SetNumTiles` call with a positive value on the x or
the y axis. -/
theorem dimensions_after_Init (LoadTextureGetID : String → Nat) (junk : Int) (m0 m' : CMap2D)
    (numLevels numRows numCols : Nat) (ops : List Op)
    (hrun : run (Init LoadTextureGetID junk m0 numLevels numRows numCols).2 ops = some m') :
    m'.uiNumLevels = numLevels ∧ Shaped m'.arrMapInfo numLevels numRows numCols ∧
      ((∀ op ∈ ops, ¬ changesTiles op) →
        m'.cSettings.NUM_TILES_XAXIS = numCols ∧ m'.cSettings.NUM_TILES_YAXIS = numRows) := by
  have hk := Init_kept LoadTextureGetID junk m0 numLevels numRows numCols
  have hS : Shaped (Init LoadTextureGetID junk m0 numLevels numRows numCols).2.arrMapInfo
      numLevels numRows numCols := by
    rw [hk.1]
    exact initGrid_shaped junk numLevels numRows numCols
  have h := run_kept numLevels numRows numCols ops _ m' hS hrun
  refine ⟨by rw [h.2.1, hk.2.2.1], h.1, ?_⟩
  intro hno
  have h2 := h.2.2 hno
  exact ⟨by rw [h2.1, hk.2.2.2.1], by rw [h2.2, hk.2.2.2.2.1]⟩

theorem dimensions_after_Init_witness :
    ∃ m', run (fresh 1 2 2)
        [Op.SetMapInfo 1 1 100 false, Op.SetNumSteps AXIS.x 4, Op.SetNumTiles AXIS.z 9,
          Op.SetCurrentLevel 3, Op.SaveMap 0] = some m' ∧
      m'.uiNumLevels = 1 ∧ Shaped m'.arrMapInfo 1 2 2 ∧
      m'.cSettings.NUM_TILES_XAXIS = 2 ∧ m'.cSettings.NUM_TILES_YAXIS = 2 := by
  have hrun : run (fresh 1 2 2)
      [Op.SetMapInfo 1 1 100 false, Op.SetNumSteps AXIS.x 4, Op.SetNumTiles AXIS.z 9,
        Op.SetCurrentLevel 3, Op.SaveMap 0] =
      some (SaveMap (SetNumSteps { fresh 1 2 2 with arrMapInfo := [[[0, 0], [0, 100]]] }
        AXIS.x 4) 0).state := by decide
  have h := dimensions_after_Init loaderOK 0 (constructed defaultSettings) _ 1 2 2 _ hrun
  refine ⟨_, hrun, h.1, h.2.1, h.2.2 ?_⟩
  intro op hop
  simp only [List.mem_cons, List.mem_singleton, List.not_mem_nil, or_false] at hop
  rcases hop with rfl | rfl | rfl | rfl | rfl <;> simp [changesTiles]

/-- C9, as stated, fails: after `Init(1, 2, 2)`, the call `SetNumTiles(y, 5)` makes
the row count of the settings 5, while the array keeps its 2 rows; the inverted read
of row 0 then goes to row 4, outside the array. -/
theorem dimensions_after_Init_counterexample :
    run (fresh 1 2 2) [Op.SetNumTiles AXIS.y 5] = some (SetNumTiles (fresh 1 2 2) AXIS.y 5) ∧
      (SetNumTiles (fresh 1 2 2) AXIS.y 5).cSettings.NUM_TILES_YAXIS = 5 ∧
      (SetNumTiles (fresh 1 2 2) AXIS.y 5).arrMapInfo = [[[0, 0], [0, 0]]] ∧
      GetMapInfo (SetNumTiles (fresh 1 2 2) AXIS.y 5) 0 0 true = none := by
  decide


/-! ## Integers as text -/

theorem digitChar_facts : ∀ d, d < 10 →
    isDigit (digitChar d) = true ∧ digitVal (digitChar d) = d ∧
      isSpace (digitChar d) = false ∧ digitChar d ≠ '-' ∧ digitChar d ≠ '+' := by
  decide

theorem natDigits_isDigit : ∀ (fuel n : Nat) (c : Char), c ∈ natDigits fuel n → isDigit c = true := by
  intro fuel
  induction fuel with
  | zero =>
    intro n c hc
    simp [natDigits] at hc
  | succ f ih =>
    intro n c hc
    unfold natDigits at hc
    split_ifs at hc with hn
    · simp only [List.mem_singleton] at hc
      subst hc
      exact (digitChar_facts n hn).1
    · rw [List.mem_append] at hc
      rcases hc with hc | hc
      · exact ih _ c hc
      · simp only [List.mem_singleton] at hc
        subst hc
        exact (digitChar_facts (n % 10) (Nat.mod_lt _ (by decide))).1

theorem natDigits_ne_nil (fuel n : Nat) : natDigits (fuel + 1) n ≠ [] := by
  unfold natDigits
  split_ifs <;> simp

theorem readDigits_append (xs : Str) (c : Char) (hxs : ∀ x ∈ xs, isDigit x = true) :
    ∀ acc, readDigits acc (xs ++ [c]) = readDigits (readDigits acc xs) [c] := by
  induction xs with
  | nil => intro acc; rfl
  | cons x xs ih =>
    intro acc
    have hx : isDigit x = true := hxs x (List.mem_cons_self _ _)
    simp only [List.cons_append, readDigits, hx, if_true]
    exact ih (fun y hy => hxs y (List.mem_cons_of_mem _ hy)) _

theorem readDigits_natDigits : ∀ (fuel n : Nat), n < 10 ^ fuel →
    readDigits 0 (natDigits fuel n) = n := by
  intro fuel
  induction fuel with
  | zero =>
    intro n hn
    simp only [pow_zero, Nat.lt_one_iff] at hn
    subst hn
    rfl
  | succ f ih =>
    intro n hn
    unfold natDigits
    split_ifs with h10
    · simp [readDigits, (digitChar_facts n h10).1, (digitChar_facts n h10).2.1]
    · have hdiv : n / 10 < 10 ^ f := by
        rw [Nat.div_lt_iff_lt_mul (by decide)]
        rw [pow_succ] at hn
        exact hn
      have hmod : n % 10 < 10 := Nat.mod_lt _ (by decide)
      rw [readDigits_append _ _ (natDigits_isDigit f (n / 10)), ih _ hdiv]
      simp only [readDigits, (digitChar_facts _ hmod).1, (digitChar_facts _ hmod).2.1, if_true]
      omega

theorem stoi_digits (ds : Str) (hne : ds ≠ []) (hds : ∀ x ∈ ds, isDigit x = true) :
    ∃ c cs, ds = c :: cs ∧ isDigit c = true ∧ isSpace c = false ∧ c ≠ '-' ∧ c ≠ '+' := by
  cases ds with
  | nil => exact absurd rfl hne
  | cons c cs =>
    have hc : isDigit c = true := hds c (List.mem_cons_self _ _)
    refine ⟨c, cs, rfl, hc, ?_, ?_, ?_⟩
    · unfold isDigit at hc
      unfold isSpace
      simp only [Bool.and_eq_true, decide_eq_true_eq] at hc
      simp only [Bool.or_eq_false_iff, decide_eq_false_iff_not]
      omega
    · rintro rfl
      exact absurd hc (by decide)
    · rintro rfl
      exact absurd hc (by decide)

/-- Reading back the text written for an `int` gives the `int`. -/
theorem stoi_ToStr (v : Int) (hv : IsInt v) : stoi (ToStr v) = Except.ok v := by
  have hfuel : v.natAbs < 10 ^ (v.natAbs + 1) :=
    lt_of_lt_of_le (Nat.lt_pow_self (by decide) _) (Nat.pow_le_pow_right (by decide) (by omega))
  have hread := readDigits_natDigits _ _ hfuel
  obtain ⟨c, cs, hds, hc1, hc2, hc3, hc4⟩ :=
    stoi_digits (natDigits (v.natAbs + 1) v.natAbs) (natDigits_ne_nil _ _)
      (natDigits_isDigit _ _)
  rw [hds] at hread
  unfold ToStr
  by_cases hneg : v < 0
  · rw [if_pos hneg, hds]
    have hval : -((v.natAbs : Nat) : Int) = v := by omega
    have h1 : skipSpace ('-' :: c :: cs) = '-' :: c :: cs := by
      unfold skipSpace
      rw [if_neg (by decide)]
    have h2 : readSign ('-' :: c :: cs) = (true, c :: cs) := by
      simp only [readSign, if_true]
    unfold stoi
    simp only [h1, h2, hread, hval, if_true]
    rw [if_pos hc1, if_pos hv]
  · rw [if_neg hneg, hds]
    have hval : ((v.natAbs : Nat) : Int) = v := by omega
    have h1 : skipSpace (c :: cs) = c :: cs := by
      unfold skipSpace
      rw [hc2]
      simp
    have h2 : readSign (c :: cs) = (false, c :: cs) := by
      simp only [readSign, if_neg hc3, if_neg hc4]
    unfold stoi
    simp only [h1, h2, hread, hval]
    rw [if_pos hc1]
    simp [hv]


/-! ## LoadMap -/

theorem stoi_error (s : Str) (e : Outcome) (h : stoi s = Except.error e) :
    e = Outcome.invalid_argument ∨ e = Outcome.out_of_range := by
  unfold stoi at h
  dsimp only at h
  split at h
  · cases h; exact Or.inl rfl
  · split_ifs at h
    all_goals
      cases h
      first
        | exact Or.inl rfl
        | exact Or.inr rfl

theorem RectDoc.cell {d : Document} {R C r c : Nat} (h : RectDoc d R C) (hr : r < R)
    (hc : c < C) : ∃ row s, d.GetRow r = some row ∧ row[c]? = some s ∧ cellText d r c = some s := by
  obtain ⟨⟨h1, h2⟩, _⟩ := h
  have hr' : r < d.mData.length := by omega
  have hrow : d.mData[r]? = some d.mData[r] := List.getElem?_eq_getElem hr'
  have hlen : d.mData[r].length = C := h2 _ (List.getElem_mem hr')
  have hc' : c < d.mData[r].length := by omega
  refine ⟨d.mData[r], d.mData[r][c], hrow, List.getElem?_eq_getElem hc', ?_⟩
  unfold cellText
  rw [hrow]
  exact List.getElem?_eq_getElem hc'

theorem loadCell_step (a0 : List (List (List Int))) (level : Nat) (d : Document)
    (L R C uiRow : Nat) (row : List Str) (hD : RectDoc d R C) (hL : level < L)
    (hrow : uiRow < R) (hget : d.GetRow uiRow = some row) :
    ∀ (j : Nat) (a : List (List (List Int))), j < C → LoadInv a0 level d L R C uiRow j a →
      postE (fun e => ∃ c0, c0 < C ∧ LoadExit a0 level d L R C uiRow c0 e)
        (LoadInv a0 level d L R C uiRow (j + 1)) (loadCell row level uiRow j a) := by
  intro j a hj hinv
  obtain ⟨row', s, hrow', hs, hcell⟩ := hD.cell hrow hj
  rw [hget] at hrow'
  cases hrow'
  have hbefore : ∀ r c, Before r c uiRow (j + 1) ↔ (Before r c uiRow j ∨ (r = uiRow ∧ c = j)) := by
    intro r c
    unfold Before
    omega
  unfold loadCell
  rw [hs]
  simp only
  cases hst : stoi s with
  | error e =>
    exact ⟨j, hj, by simp [hcell, hst], hinv⟩
  | ok v =>
    simp only
    obtain ⟨a', hw, hS', hread⟩ := writeCell_some hinv.1 hL hrow hj v
    rw [hw]
    have hfv : fileValue d uiRow j = v := by
      unfold fileValue
      rw [hcell]
      simp only [hst]
    refine ⟨hS', ?_, ?_⟩
    · intro r c hc hb
      rcases (hbefore r c).mp hb with hb | ⟨rfl, rfl⟩
      · exact hinv.2.1 r c hc hb
      · exact ⟨v, by simp [hcell, hst]⟩
    · intro l r c
      rw [hread l r c, hinv.2.2 l r c]
      by_cases hpos : l = level ∧ r = uiRow ∧ c = j
      · obtain ⟨rfl, rfl, rfl⟩ := hpos
        have : l = l ∧ c < C ∧ Before r c r (c + 1) := ⟨rfl, hj, (hbefore r c).mpr (Or.inr ⟨rfl, rfl⟩)⟩
        rw [if_pos ⟨rfl, rfl, rfl⟩, if_pos this, hfv]
      · rw [if_neg hpos]
        by_cases hold : l = level ∧ c < C ∧ Before r c uiRow j
        · rw [if_pos hold, if_pos ⟨hold.1, hold.2.1, (hbefore r c).mpr (Or.inl hold.2.2)⟩]
        · rw [if_neg hold, if_neg]
          rintro ⟨h1, h2, h3⟩
          rcases (hbefore r c).mp h3 with h3 | ⟨h3, h4⟩
          · exact hold ⟨h1, h2, h3⟩
          · exact hpos ⟨h1, h3, h4⟩

theorem loadRow_step (a0 : List (List (List Int))) (level : Nat) (d : Document)
    (L R C : Nat) (hD : RectDoc d R C) (hL : level < L) :
    ∀ (j : Nat) (a : List (List (List Int))), j < R → LoadInv a0 level d L R C j 0 a →
      postE (fun e => ∃ r0 c0, r0 < R ∧ c0 < C ∧ LoadExit a0 level d L R C r0 c0 e)
        (LoadInv a0 level d L R C (j + 1) 0) (loadRow d C level j a) := by
  intro j a hj hinv
  have hb : ∀ r c, c < C → (Before r c (j + 1) 0 ↔ Before r c j C) := by
    intro r c hc
    unfold Before
    omega
  by_cases hC : C = 0
  · subst hC
    have hrow : ∃ row, d.GetRow j = some row := by
      have : j < d.mData.length := by rw [hD.1.1]; exact hj
      exact ⟨_, List.getElem?_eq_getElem this⟩
    obtain ⟨row, hrow⟩ := hrow
    unfold loadRow
    rw [hrow]
    simp only [forLoopE]
    refine ⟨hinv.1, ?_, ?_⟩
    · intro r c hc; omega
    · intro l r c
      rw [hinv.2.2 l r c]
      have h1 : ¬ (l = level ∧ c < 0 ∧ Before r c j 0) := by omega
      have h2 : ¬ (l = level ∧ c < 0 ∧ Before r c (j + 1) 0) := by omega
      rw [if_neg h1, if_neg h2]
  · obtain ⟨row, _, hrow, _, _⟩ := hD.cell hj (show 0 < C by omega)
    unfold loadRow
    rw [hrow]
    simp only
    have hin := forLoopE_inv (loadCell row level j) C _ _
      (loadCell_step a0 level d L R C j row hD hL hj hrow) C 0 a (by omega) hinv
    cases hres : forLoopE (loadCell row level j) C 0 a with
    | ok a' =>
      rw [hres] at hin
      refine ⟨hin.1, ?_, ?_⟩
      · intro r c hc hbf
        exact hin.2.1 r c hc ((hb r c hc).mp hbf)
      · intro l r c
        rw [hin.2.2 l r c]
        by_cases hcond : l = level ∧ c < C ∧ Before r c j C
        · rw [if_pos hcond, if_pos ⟨hcond.1, hcond.2.1, (hb r c hcond.2.1).mpr hcond.2.2⟩]
        · rw [if_neg hcond, if_neg]
          rintro ⟨h1, h2, h3⟩
          exact hcond ⟨h1, h2, (hb r c h2).mp h3⟩
    | error e =>
      rw [hres] at hin
      obtain ⟨c0, hc0, hex⟩ := hin
      exact ⟨j, c0, hj, hc0, hex⟩

theorem LoadMap_cases (m : CMap2D) (file : Document) (level L R C : Nat)
    (hS : Shaped m.arrMapInfo L R C) (hX : m.cSettings.NUM_TILES_XAXIS = C)
    (hY : m.cSettings.NUM_TILES_YAXIS = R) (hC : C < UINT_MOD) (hR : R < UINT_MOD)
    (hD : RectDoc file R C) (hL : level < L) :
    ((LoadMap m file level).1 = Outcome.returned true ∧
      LoadInv m.arrMapInfo level file L R C R 0 (LoadMap m file level).2.arrMapInfo) ∨
    (∃ r0 c0, r0 < R ∧ c0 < C ∧
      LoadExit m.arrMapInfo level file L R C r0 c0
        ((LoadMap m file level).1, (LoadMap m file level).2.arrMapInfo)) := by
  have hinit : LoadInv m.arrMapInfo level file L R C 0 0 m.arrMapInfo := by
    refine ⟨hS, ?_, ?_⟩
    · intro r c _ hb
      unfold Before at hb
      omega
    · intro l r c
      have : ¬ (l = level ∧ c < C ∧ Before r c 0 0) := by
        unfold Before
        omega
      rw [if_neg this]
  have hloop := forLoopE_inv (loadRow file C level) R _ _
    (loadRow_step m.arrMapInfo level file L R C hD hL) R 0 m.arrMapInfo (by omega) hinit
  have hdim : ¬ (C ≠ file.GetColumnCount % UINT_MOD ∨ R ≠ file.GetRowCount % UINT_MOD) := by
    have h1 : file.GetColumnCount = C := hD.2
    have h2 : file.GetRowCount = R := hD.1.1
    rw [h1, h2, Nat.mod_eq_of_lt hC, Nat.mod_eq_of_lt hR]
    simp
  unfold LoadMap
  simp only [hX, hY]
  rw [if_neg hdim]
  cases hres : forLoopE (loadRow file C level) R 0 m.arrMapInfo with
  | ok a =>
    rw [hres] at hloop
    exact Or.inl ⟨rfl, hloop⟩
  | error e =>
    rw [hres] at hloop
    obtain ⟨r0, c0, h1, h2, h3⟩ := hloop
    obtain ⟨o, a⟩ := e
    exact Or.inr ⟨r0, c0, h1, h2, h3⟩


theorem LoadedUpTo_all {a0 a : List (List (List Int))} {level : Nat} {d : Document}
    {C R : Nat} (h : LoadedUpTo a0 a level d C R 0) :
    (∀ r c, r < R → c < C → readCell a level r c = some (fileValue d r c)) ∧
      ∀ l r c, l ≠ level → readCell a l r c = readCell a0 l r c := by
  refine ⟨?_, ?_⟩
  · intro r c hr hc
    rw [h level r c, if_pos ⟨rfl, hc, Or.inl hr⟩]
  · intro l r c hl
    rw [h l r c, if_neg (fun hh => hl hh.1)]

theorem fileValue_of_text {d : Document} {r c : Nat} {v : Int}
    (h : (cellText d r c).map stoi = some (Except.ok v)) : fileValue d r c = v := by
  unfold fileValue
  cases hct : cellText d r c with
  | none => rw [hct] at h; cases h
  | some s =>
    rw [hct] at h
    simp only [Option.map_some', Option.some.injEq] at h
    simp only [h]

/-- C7, as the code has it. For a file of the configured dimensions whose cells all
hold a text that `std::stoi` converts to an `int`, and a level `level < numLevels`,
`LoadMap(path, level)` returns true, and afterwards the cell `(level, row, col)` holds
the integer read in row `row`, column `col` of the file, for every `row < numRows` and
`col < numCols` (no row inversion); the cells of the other levels and the current
level are as before. Where the cell of the file is the decimal text of an integer `v`
from -2147483648 to 2147483647, the integer read is `v`. -/
theorem LoadMap_success (m : CMap2D) (file : Document) (level L R C : Nat)
    (vals : Nat → Nat → Int)
    (hS : Shaped m.arrMapInfo L R C) (hX : m.cSettings.NUM_TILES_XAXIS = C)
    (hY : m.cSettings.NUM_TILES_YAXIS = R) (hC : C < UINT_MOD) (hR : R < UINT_MOD)
    (hD : RectDoc file R C) (hL : level < L)
    (hvals : ∀ r c, r < R → c < C →
      (cellText file r c).map stoi = some (Except.ok (vals r c))) :
    (LoadMap m file level).1 = Outcome.returned true ∧
      (∀ row col, row < R → col < C →
        readCell (LoadMap m file level).2.arrMapInfo level row col = some (vals row col)) ∧
      (∀ row col v, row < R → col < C → cellText file row col = some (ToStr v) → IsInt v →
        readCell (LoadMap m file level).2.arrMapInfo level row col = some v) ∧
      (∀ l r c, l ≠ level →
        readCell (LoadMap m file level).2.arrMapInfo l r c = readCell m.arrMapInfo l r c) ∧
      GetCurrentLevel (LoadMap m file level).2 = GetCurrentLevel m := by
  have hfv : ∀ r c, r < R → c < C → fileValue file r c = vals r c :=
    fun r c hr hc => fileValue_of_text (hvals r c hr hc)
  rcases LoadMap_cases m file level L R C hS hX hY hC hR hD hL with
    ⟨hret, hinv⟩ | ⟨r0, c0, hr0, hc0, hexit, _⟩
  · obtain ⟨h1, h2⟩ := LoadedUpTo_all hinv.2.2
    refine ⟨hret, ?_, ?_, h2, (LoadMap_kept m file level L R C hS).2.2.1⟩
    · intro row col hr hc
      rw [h1 row col hr hc, hfv row col hr hc]
    · intro row col v hr hc htext hv
      have hread : (cellText file row col).map stoi = some (Except.ok v) := by
        rw [htext]
        simp only [Option.map_some']
        rw [stoi_ToStr v hv]
      rw [h1 row col hr hc, fileValue_of_text hread]
  · rw [hvals r0 c0 hr0 hc0] at hexit
    cases hexit

theorem LoadMap_success_witness :
    (LoadMap (fresh 2 2 2) file22 1).1 = Outcome.returned true ∧
      (∀ row col, row < 2 → col < 2 →
        readCell (LoadMap (fresh 2 2 2) file22 1).2.arrMapInfo 1 row col
          = some (vals22 row col)) ∧
      (∀ row col v, row < 2 → col < 2 → cellText file22 row col = some (ToStr v) → IsInt v →
        readCell (LoadMap (fresh 2 2 2) file22 1).2.arrMapInfo 1 row col = some v) ∧
      (∀ l r c, l ≠ 1 →
        readCell (LoadMap (fresh 2 2 2) file22 1).2.arrMapInfo l r c
          = readCell (fresh 2 2 2).arrMapInfo l r c) ∧
      GetCurrentLevel (LoadMap (fresh 2 2 2) file22 1).2 = GetCurrentLevel (fresh 2 2 2) :=
  LoadMap_success (fresh 2 2 2) file22 1 2 2 2 vals22 (initGrid_shaped 0 2 2 2) rfl rfl
    (by decide) (by decide) (by unfold RectDoc Rect; decide) (by decide)
    (by
      intro r c hr hc
      interval_cases r <;> interval_cases c <;> decide)

/-- C7, as stated, fails: the one cell of `fileBig` is the integer 2147483648, the
file has the dimensions of the grid of `Init(1, 1, 1)`, and `LoadMap` does not return
true: `std::stoi` throws `out_of_range`, and the cell keeps its 0. -/
theorem LoadMap_success_counterexample :
    fileBig.GetRowCount = 1 ∧ fileBig.GetColumnCount = 1 ∧
      cellText fileBig 0 0 = some (ToStr 2147483648) ∧
      (LoadMap (fresh 1 1 1) fileBig 0).1 = Outcome.out_of_range ∧
      (LoadMap (fresh 1 1 1) fileBig 0).1 ≠ Outcome.returned true ∧
      readCell (LoadMap (fresh 1 1 1) fileBig 0).2.arrMapInfo 0 0 0 = some 0 := by
  decide

/-- C6, as the code has it. For a file of the configured dimensions with a cell that
`std::stoi` does not convert, `LoadMap` ends by the exception of `std::stoi`
(`invalid_argument` or `out_of_range`) and does not return; with `(r0, c0)` the first
such cell in row-major order, the cells of the target level before `(r0, c0)` hold the
integers of the file, and every other cell of the array holds the value it held
before the call. -/
theorem LoadMap_parse_error (m : CMap2D) (file : Document) (level L R C : Nat)
    (hS : Shaped m.arrMapInfo L R C) (hX : m.cSettings.NUM_TILES_XAXIS = C)
    (hY : m.cSettings.NUM_TILES_YAXIS = R) (hC : C < UINT_MOD) (hR : R < UINT_MOD)
    (hD : RectDoc file R C) (hL : level < L)
    (hbad : ∃ r c, r < R ∧ c < C ∧ ¬ Converts file r c) :
    ((LoadMap m file level).1 = Outcome.invalid_argument ∨
        (LoadMap m file level).1 = Outcome.out_of_range) ∧
      ∃ r0 c0, r0 < R ∧ c0 < C ∧ ¬ Converts file r0 c0 ∧
        (∀ r c, c < C → Before r c r0 c0 → Converts file r c) ∧
        (∀ r c, c < C → Before r c r0 c0 →
          readCell (LoadMap m file level).2.arrMapInfo level r c
            = some (fileValue file r c)) ∧
        (∀ l r c, ¬ (l = level ∧ c < C ∧ Before r c r0 c0) →
          readCell (LoadMap m file level).2.arrMapInfo l r c = readCell m.arrMapInfo l r c) := by
  rcases LoadMap_cases m file level L R C hS hX hY hC hR hD hL with
    ⟨_, hinv⟩ | ⟨r0, c0, hr0, hc0, hexit, hinv⟩
  · obtain ⟨r, c, hr, hc, hno⟩ := hbad
    exact absurd (hinv.2.1 r c hc (Or.inl hr)) hno
  · simp only at hexit hinv
    have hthrow : ∃ s, cellText file r0 c0 = some s ∧
        stoi s = Except.error (LoadMap m file level).1 := by
      cases hct : cellText file r0 c0 with
      | none => rw [hct] at hexit; cases hexit
      | some s =>
        rw [hct] at hexit
        simp only [Option.map_some', Option.some.injEq] at hexit
        exact ⟨s, rfl, hexit⟩
    obtain ⟨s, hs, hst⟩ := hthrow
    refine ⟨stoi_error s _ hst, r0, c0, hr0, hc0, ?_, hinv.2.1, ?_, ?_⟩
    · rintro ⟨v, hv⟩
      rw [hs] at hv
      simp only [Option.map_some', Option.some.injEq] at hv
      rw [hst] at hv
      cases hv
    · intro r c hc hb
      rw [hinv.2.2 level r c, if_pos ⟨rfl, hc, hb⟩]
    · intro l r c hn
      rw [hinv.2.2 l r c, if_neg hn]

theorem LoadMap_parse_error_witness :
    ((LoadMap (fresh 1 1 2) fileBad 0).1 = Outcome.invalid_argument ∨
        (LoadMap (fresh 1 1 2) fileBad 0).1 = Outcome.out_of_range) ∧
      ∃ r0 c0, r0 < 1 ∧ c0 < 2 ∧ ¬ Converts fileBad r0 c0 ∧
        (∀ r c, c < 2 → Before r c r0 c0 → Converts fileBad r c) ∧
        (∀ r c, c < 2 → Before r c r0 c0 →
          readCell (LoadMap (fresh 1 1 2) fileBad 0).2.arrMapInfo 0 r c
            = some (fileValue fileBad r c)) ∧
        (∀ l r c, ¬ (l = 0 ∧ c < 2 ∧ Before r c r0 c0) →
          readCell (LoadMap (fresh 1 1 2) fileBad 0).2.arrMapInfo l r c
            = readCell (fresh 1 1 2).arrMapInfo l r c) :=
  LoadMap_parse_error (fresh 1 1 2) fileBad 0 1 1 2 (initGrid_shaped 0 1 1 2) rfl rfl
    (by decide) (by decide) (by unfold RectDoc Rect; decide) (by decide)
    ⟨0, 1, by decide, by decide, by
      rintro ⟨v, hv⟩
      have h : (cellText fileBad 0 1).map stoi = some (Except.error Outcome.invalid_argument) := by
        decide
      rw [h] at hv
      cases hv⟩

/-- C6, as stated, fails: loading `fileBad`, whose second cell is no integer, into
the zeroed grid of `Init(1, 1, 2)` ends by `invalid_argument`, and the cell `(0, 0)`,
which held 0, then holds the 7 of the first cell of the file. -/
theorem LoadMap_parse_error_counterexample :
    fileBad.GetRowCount = 1 ∧ fileBad.GetColumnCount = 2 ∧
      (LoadMap (fresh 1 1 2) fileBad 0).1 = Outcome.invalid_argument ∧
      readCell (fresh 1 1 2).arrMapInfo 0 0 0 = some 0 ∧
      readCell (LoadMap (fresh 1 1 2) fileBad 0).2.arrMapInfo 0 0 0 = some 7 := by
  decide


/-! ## Cells of the document -/

theorem Rect.columnCount {rows : List (List Str)} {n c : Nat} (h : Rect rows n c)
    (hn : 0 < n) : Document.GetColumnCount ⟨rows⟩ = c := by
  obtain ⟨h1, h2⟩ := h
  cases rows with
  | nil => simp at h1; omega
  | cons x xs => exact h2 x (List.mem_cons_self _ _)

theorem length_resizeRow (n : Nat) (r : List Str) : (resizeRow n r).length = n := by
  unfold resizeRow
  rw [List.length_append, List.length_take, List.length_replicate]
  omega

theorem getElem?_resizeRow {n j : Nat} {r : List Str} (hr : r.length ≤ n) (hj : j < r.length) :
    (resizeRow n r)[j]? = r[j]? := by
  unfold resizeRow
  rw [List.take_of_length_le hr, List.getElem?_append_left hj]

theorem cellText_mk_append {rows ys : List (List Str)} {i j : Nat} {s : Str}
    (h : cellText ⟨rows⟩ i j = some s) : cellText ⟨rows ++ ys⟩ i j = some s := by
  unfold cellText at h ⊢
  simp only at h ⊢
  cases hrow : rows[i]? with
  | none => rw [hrow] at h; cases h
  | some row =>
    have hi : i < rows.length := by
      by_contra hge
      rw [List.getElem?_eq_none (by omega)] at hrow
      cases hrow
    rw [List.getElem?_append_left hi, hrow]
    rw [hrow] at h
    exact h

theorem cellText_mk_resize {rows : List (List Str)} {n i j : Nat} {s : Str}
    (hlen : ∀ r ∈ rows, r.length ≤ n) (h : cellText ⟨rows⟩ i j = some s) :
    cellText ⟨rows.map (resizeRow n)⟩ i j = some s := by
  unfold cellText at h ⊢
  simp only at h ⊢
  cases hrow : rows[i]? with
  | none => rw [hrow] at h; cases h
  | some row =>
    rw [hrow] at h
    simp only at h
    rw [List.getElem?_map, hrow]
    simp only [Option.map_some']
    have hj : j < row.length := by
      by_contra hge
      rw [List.getElem?_eq_none (by omega)] at h
      cases h
    rw [getElem?_resizeRow (hlen row (List.mem_iff_getElem?.mpr ⟨i, hrow⟩)) hj]
    exact h

theorem cellText_mk_set {rows : List (List Str)} {row col : Nat} {rr : List Str} (text : Str)
    (hrow : rows[row]? = some rr) (hcol : col < rr.length) (i j : Nat) :
    cellText ⟨rows.set row (rr.set col text)⟩ i j =
      if i = row ∧ j = col then some text else cellText ⟨rows⟩ i j := by
  have hr : row < rows.length := by
    by_contra hge
    rw [List.getElem?_eq_none (by omega)] at hrow
    cases hrow
  unfold cellText
  simp only
  by_cases hi : i = row
  · subst hi
    rw [List.getElem?_set_self hr, hrow]
    simp only
    by_cases hj : j = col
    · subst hj
      simp [List.getElem?_set_self hcol]
    · simp [hj, List.getElem?_set_ne (Ne.symm hj)]
  · simp [hi, List.getElem?_set_ne (Ne.symm hi)]

theorem cellText_bounds {d : Document} {r c i j : Nat} {s : Str} (hD : RectDoc d r c)
    (h : cellText d i j = some s) : i < r ∧ j < c := by
  unfold cellText at h
  cases hrow : d.mData[i]? with
  | none => rw [hrow] at h; cases h
  | some row =>
    rw [hrow] at h
    simp only at h
    have hi : i < d.mData.length := by
      by_contra hge
      rw [List.getElem?_eq_none (by omega)] at hrow
      cases hrow
    have hj : j < row.length := by
      by_contra hge
      rw [List.getElem?_eq_none (by omega)] at h
      cases h
    have hlen := hD.1.2 row (List.mem_iff_getElem?.mpr ⟨i, hrow⟩)
    have := hD.1.1
    omega

theorem SetCell_spec (d : Document) (r c R C row col : Nat) (text : Str)
    (hD : RectDoc d r c) (hr : r ≤ R) (hc : c ≤ C) (hrow : row < R) (hcol : col < C) :
    ∃ d', d.SetCell col row text = some d' ∧
      (∃ r' c', RectDoc d' r' c' ∧ r' ≤ R ∧ c' ≤ C) ∧
      cellText d' row col = some text ∧
      ∀ i j s, (i ≠ row ∨ j ≠ col) → cellText d i j = some s → cellText d' i j = some s := by
  obtain ⟨⟨hlen, hall⟩, hcc⟩ := hD
  -- the rows after the table has been extended
  have hR1 : Rect (d.mData ++ List.replicate (row + 1 - d.mData.length)
      (List.replicate d.GetColumnCount [])) (max r (row + 1)) c := by
    refine ⟨by rw [List.length_append, List.length_replicate]; omega, ?_⟩
    intro x hx
    rcases List.mem_append.mp hx with hx | hx
    · exact hall x hx
    · rw [List.eq_of_mem_replicate hx, List.length_replicate, hcc]
  have hpos : 0 < max r (row + 1) := by omega
  have hcc1 := hR1.columnCount hpos
  -- the rows after the columns have been resized
  have hR2 : ∃ rows2,
      (if (Document.mk (d.mData ++ List.replicate (row + 1 - d.mData.length)
          (List.replicate d.GetColumnCount []))).GetColumnCount < col + 1 then
        (d.mData ++ List.replicate (row + 1 - d.mData.length)
          (List.replicate d.GetColumnCount [])).map (resizeRow (col + 1))
      else d.mData ++ List.replicate (row + 1 - d.mData.length)
          (List.replicate d.GetColumnCount [])) = rows2 ∧
      Rect rows2 (max r (row + 1)) (max c (col + 1)) ∧
      ∀ i j s, cellText d i j = some s → cellText ⟨rows2⟩ i j = some s := by
    rw [hcc1]
    by_cases hlt : c < col + 1
    · rw [if_pos hlt]
      refine ⟨_, rfl, ⟨by rw [List.length_map]; exact hR1.1, ?_⟩, ?_⟩
      · intro x hx
        obtain ⟨y, _, rfl⟩ := List.mem_map.mp hx
        rw [length_resizeRow]
        omega
      · intro i j s hs
        apply cellText_mk_resize
        · intro x hx
          rw [hR1.2 x hx]
          omega
        · exact cellText_mk_append hs
    · rw [if_neg hlt]
      refine ⟨_, rfl, ?_, ?_⟩
      · have : max c (col + 1) = c := by omega
        rw [this]
        exact hR1
      · intro i j s hs
        exact cellText_mk_append hs
  obtain ⟨rows2, hrows2, hRect2, hkeep⟩ := hR2
  have hrow2 : row < rows2.length := by rw [hRect2.1]; omega
  have hget : rows2[row]? = some rows2[row] := List.getElem?_eq_getElem hrow2
  have hrl : rows2[row].length = max c (col + 1) := hRect2.2 _ (List.getElem_mem hrow2)
  have hcl : col < rows2[row].length := by omega
  refine ⟨⟨rows2.set row (rows2[row].set col text)⟩, ?_, ?_, ?_, ?_⟩
  · unfold Document.SetCell
    simp only [hrows2, hget, if_pos hcl]
  · have hR3 : Rect (rows2.set row (rows2[row].set col text)) (max r (row + 1))
        (max c (col + 1)) := by
      refine ⟨by rw [List.length_set]; exact hRect2.1, ?_⟩
      intro x hx
      rcases mem_set_cases hx with rfl | hx
      · rw [List.length_set]; exact hrl
      · exact hRect2.2 x hx
    exact ⟨_, _, ⟨hR3, hR3.columnCount hpos⟩, by omega, by omega⟩
  · rw [cellText_mk_set text hget hcl, if_pos ⟨rfl, rfl⟩]
  · intro i j s hne hs
    rw [cellText_mk_set text hget hcl, if_neg (by omega)]
    exact hkeep i j s hs


/-! ## SaveMap, and the round trip through a file -/

theorem saveCell_step (a : List (List (List Int))) (level L R C uiRow : Nat)
    (hS : Shaped a L R C) (hL : level < L) (hrow : uiRow < R) :
    ∀ (j : Nat) (d : Document), j < C → SaveInv a level R C uiRow j d →
      postE (fun _ => False) (SaveInv a level R C uiRow (j + 1)) (saveCell a level uiRow j d) := by
  intro j d hj hinv
  obtain ⟨v, hv⟩ := readCell_some hS hL hrow hj
  obtain ⟨⟨r, c, hD, hr, hc⟩, hcells⟩ := hinv
  obtain ⟨d', hset, hrect, hnew, hkeep⟩ := SetCell_spec d r c R C uiRow j (ToStr v) hD hr hc hrow hj
  unfold saveCell
  rw [hv]
  simp only [hset]
  refine ⟨hrect, ?_⟩
  intro i k hk hb
  by_cases hpos : i = uiRow ∧ k = j
  · obtain ⟨rfl, rfl⟩ := hpos
    exact ⟨v, hv, hnew⟩
  · have hb' : Before i k uiRow j := by
      unfold Before at hb ⊢
      omega
    obtain ⟨w, hw, hcell⟩ := hcells i k hk hb'
    exact ⟨w, hw, hkeep i k _ (by omega) hcell⟩

theorem SaveMap_cases (m : CMap2D) (level L R C : Nat)
    (hS : Shaped m.arrMapInfo L R C) (hX : m.cSettings.NUM_TILES_XAXIS = C)
    (hY : m.cSettings.NUM_TILES_YAXIS = R) (hL : level < L)
    (hdoc : ∃ r c, RectDoc m.doc r c ∧ r ≤ R ∧ c ≤ C) :
    ∃ file, (SaveMap m level).outcome = Outcome.returned true ∧
      (SaveMap m level).file = some file ∧ SaveInv m.arrMapInfo level R C R 0 file := by
  have hinit : SaveInv m.arrMapInfo level R C 0 0 m.doc := by
    refine ⟨hdoc, ?_⟩
    intro i j _ hb
    unfold Before at hb
    omega
  have hloop := forLoopE_inv
    (fun uiRow d => forLoopE (saveCell m.arrMapInfo level uiRow) m.cSettings.NUM_TILES_XAXIS 0 d)
    R (fun j d => SaveInv m.arrMapInfo level R C j 0 d) (fun _ => False)
    (by
      intro j d hj hinv
      have hin := forLoopE_inv (saveCell m.arrMapInfo level j) C _ _
        (saveCell_step m.arrMapInfo level L R C j hS hL hj) C 0 d (by omega) hinv
      simp only [hX]
      cases hres : forLoopE (saveCell m.arrMapInfo level j) C 0 d with
      | ok d' =>
        rw [hres] at hin
        refine ⟨hin.1, ?_⟩
        intro i k hk hb
        apply hin.2 i k hk
        unfold Before at hb ⊢
        omega
      | error e =>
        rw [hres] at hin
        exact hin)
    R 0 m.doc (by omega) hinit
  unfold SaveMap
  rw [hY]
  cases hres : forLoopE
      (fun uiRow d => forLoopE (saveCell m.arrMapInfo level uiRow) m.cSettings.NUM_TILES_XAXIS 0 d)
      R 0 m.doc with
  | ok d =>
    rw [hres] at hloop
    exact ⟨d, rfl, rfl, hloop⟩
  | error e =>
    rw [hres] at hloop
    exact absurd hloop id

theorem SaveInv_file {a : List (List (List Int))} {level R C : Nat} {file : Document}
    (hRpos : 0 < R) (hCpos : 0 < C) (h : SaveInv a level R C R 0 file) : RectDoc file R C := by
  obtain ⟨⟨r, c, hD, hr, hc⟩, hcells⟩ := h
  obtain ⟨v, _, hcell⟩ := hcells (R - 1) (C - 1) (by omega) (Or.inl (by omega))
  have hb := cellText_bounds hD hcell
  have h1 : r = R := by omega
  have h2 : c = C := by omega
  subst h1 h2
  exact hD

/-- C1, as the code has it. Let the settings hold the dimensions `numRows > 0` and
`numCols > 0` of the allocated array, and let the document that the map holds be a
table of at most `numRows` rows and `numCols` columns (as it is before any `LoadMap`
and after a `LoadMap` that returned true). Then for every `level < numLevels`,
`SaveMap(path, level)` returns true and writes a file, and `LoadMap(path, level)` of
that file into the grid of a fresh `Init(numLevels, numRows, numCols)` returns true
and leaves at every `(row, col)` with `row < numRows` and `col < numCols` the value
that the saved level held. The cells hold values of the type `int`. -/
theorem SaveMap_LoadMap_round_trip (m m0 : CMap2D) (LoadTextureGetID : String → Nat)
    (junk : Int) (level numLevels numRows numCols : Nat)
    (hS : Shaped m.arrMapInfo numLevels numRows numCols)
    (hX : m.cSettings.NUM_TILES_XAXIS = numCols) (hY : m.cSettings.NUM_TILES_YAXIS = numRows)
    (hC : numCols < UINT_MOD) (hR : numRows < UINT_MOD)
    (hRpos : 0 < numRows) (hCpos : 0 < numCols) (hL : level < numLevels)
    (hint : ∀ r, r < numRows → ∀ c, c < numCols →
      ∀ v ∈ readCell m.arrMapInfo level r c, IsInt v)
    (hdoc : ∃ r c, RectDoc m.doc r c ∧ r ≤ numRows ∧ c ≤ numCols) :
    ∃ file, (SaveMap m level).outcome = Outcome.returned true ∧
      (SaveMap m level).file = some file ∧
      (LoadMap (Init LoadTextureGetID junk m0 numLevels numRows numCols).2 file level).1
        = Outcome.returned true ∧
      ∀ row col, row < numRows → col < numCols →
        readCell (LoadMap (Init LoadTextureGetID junk m0 numLevels numRows numCols).2
          file level).2.arrMapInfo level row col = readCell m.arrMapInfo level row col := by
  have hk := Init_kept LoadTextureGetID junk m0 numLevels numRows numCols
  have hS2 : Shaped (Init LoadTextureGetID junk m0 numLevels numRows numCols).2.arrMapInfo
      numLevels numRows numCols := by
    rw [hk.1]
    exact initGrid_shaped junk numLevels numRows numCols
  obtain ⟨file, hout, hfile, hinv⟩ :=
    SaveMap_cases m level numLevels numRows numCols hS hX hY hL hdoc
  have hD := SaveInv_file hRpos hCpos hinv
  -- every cell of the file is the text of the cell of the level, and reads back as it
  have hvals : ∀ r c, r < numRows → c < numCols → ∃ v,
      readCell m.arrMapInfo level r c = some v ∧
        (cellText file r c).map stoi = some (Except.ok v) := by
    intro r c hr hc
    obtain ⟨v, hv, hcell⟩ := hinv.2 r c hc (Or.inl hr)
    refine ⟨v, hv, ?_⟩
    rw [hcell]
    simp only [Option.map_some']
    rw [stoi_ToStr v (hint r hr c hc v hv)]
  refine ⟨file, hout, hfile, ?_⟩
  rcases LoadMap_cases (Init LoadTextureGetID junk m0 numLevels numRows numCols).2 file level
      numLevels numRows numCols hS2 hk.2.2.2.1 hk.2.2.2.2.1 hC hR hD hL with
    ⟨hret, hload⟩ | ⟨r0, c0, hr0, hc0, hexit, _⟩
  · refine ⟨hret, ?_⟩
    intro row col hr hc
    obtain ⟨v, hv, hread⟩ := hvals row col hr hc
    rw [(LoadedUpTo_all hload.2.2).1 row col hr hc, fileValue_of_text hread, hv]
  · obtain ⟨v, _, hread⟩ := hvals r0 c0 hr0 hc0
    rw [hread] at hexit
    cases hexit

theorem SaveMap_LoadMap_round_trip_witness :
    ∃ file, (SaveMap (LoadMap (fresh 2 2 2) file22 1).2 1).outcome = Outcome.returned true ∧
      (SaveMap (LoadMap (fresh 2 2 2) file22 1).2 1).file = some file ∧
      (LoadMap (Init loaderOK 9 (constructed defaultSettings) 2 2 2).2 file 1).1
        = Outcome.returned true ∧
      ∀ row col, row < 2 → col < 2 →
        readCell (LoadMap (Init loaderOK 9 (constructed defaultSettings) 2 2 2).2
          file 1).2.arrMapInfo 1 row col
          = readCell (LoadMap (fresh 2 2 2) file22 1).2.arrMapInfo 1 row col :=
  SaveMap_LoadMap_round_trip (LoadMap (fresh 2 2 2) file22 1).2 (constructed defaultSettings)
    loaderOK 9 1 2 2 2 (by unfold Shaped; decide) (by decide) (by decide) (by decide)
    (by decide) (by decide) (by decide) (by decide) (by decide)
    ⟨2, 2, by unfold RectDoc Rect; decide, by decide, by decide⟩

/-- C1, as stated, fails. After `Init(1, 1, 1)`, a `LoadMap` of the two-row file
`file21` returns false and leaves that document in the map; `SaveMap` then writes a
file of two rows, and `LoadMap` of it into a fresh grid of the same dimensions returns
false. Likewise for a grid of 0 rows and 1 column: the file written has no column. -/
theorem SaveMap_LoadMap_round_trip_counterexample :
    run (fresh 1 1 1) [Op.LoadMap file21 0] = some (LoadMap (fresh 1 1 1) file21 0).2 ∧
      (LoadMap (fresh 1 1 1) file21 0).1 = Outcome.returned false ∧
      (SaveMap (LoadMap (fresh 1 1 1) file21 0).2 0).outcome = Outcome.returned true ∧
      (SaveMap (LoadMap (fresh 1 1 1) file21 0).2 0).file = some ⟨[[['0']], [['8']]]⟩ ∧
      (LoadMap (fresh 1 1 1) ⟨[[['0']], [['8']]]⟩ 0).1 = Outcome.returned false ∧
      (SaveMap (fresh 1 0 1) 0).file = some ⟨[]⟩ ∧
      (LoadMap (fresh 1 0 1) ⟨[]⟩ 0).1 = Outcome.returned false := by
  decide

end Map2D
